import Mathlib

/-!
Verification development for `bnb::oep::effect_player` (src/effect_player.cpp).

A shallow embedding of the frame-format classifiers, the frame dispatcher and
the surface/playback lifecycle wrapper of the effect player adapter, followed
by theorems about them.

The C++ namespaces are kept: `bnb` holds the engine-side image types,
`bnb.interfaces` the engine-side channel order, `bnb.oep.interfaces` the
caller-side pixel buffer types and `bnb.oep.effect_player` the adapter itself.
-/

set_option autoImplicit false

namespace bnb

/-- Engine-side rotation tag `bnb::camera_orientation`. -/
inductive camera_orientation where
  | deg_0
  | deg_90
  | deg_180
  | deg_270
  deriving DecidableEq, Repr

/-- Rotation in degrees that a `camera_orientation` tag stands for. -/
def camera_orientation.degrees : camera_orientation → Nat
  | .deg_0 => 0
  | .deg_90 => 90
  | .deg_180 => 180
  | .deg_270 => 270

/-- Engine-side image descriptor `bnb::image_format`, with the six members in
the order in which `make_bnb_image_format` initialises them. The last member
is an optional field of view; the adapter only ever stores `std::nullopt`
there, so its payload type is kept abstract as a natural number. -/
structure image_format where
  width : Nat
  height : Nat
  orientation : camera_orientation
  require_mirroring : Bool
  face_orientation : Int
  fov : Option Nat
  deriving DecidableEq, Repr

/-- Plane structure `bnb::yuv_format`. -/
inductive yuv_format where
  | yuv_nv12
  | yuv_i420
  deriving DecidableEq, Repr

/-- Colour standard `bnb::color_std`. -/
inductive color_std where
  | bt601
  | bt709
  deriving DecidableEq, Repr

/-- Colour range `bnb::color_range`. -/
inductive color_range where
  | video
  | full
  deriving DecidableEq, Repr

/-- The triple `bnb::yuv_format_t`, members in the order of the returned
initialiser list `{range, standard, format}`. -/
structure yuv_format_t where
  range : color_range
  standard : color_std
  format : yuv_format
  deriving DecidableEq, Repr

namespace interfaces

/-- Engine-side channel order `bnb::interfaces::pixel_format`. -/
inductive pixel_format where
  | rgb
  | rgba
  | bgr
  | bgra
  | argb
  deriving DecidableEq, Repr

end interfaces

/-- A handle to one backing memory plane (the shared pointer to its first
byte); the adapter never looks inside it. -/
abbrev plane_sptr := Nat

/-- The engine-side wrapper `color_plane(...)` around a plane handle. -/
structure color_plane where
  data : plane_sptr
  deriving DecidableEq, Repr

/-- The packed image `bpc8_image_t(plane, pixel_format, image_format)`. -/
structure bpc8_image_t where
  plane : color_plane
  fmt : interfaces.pixel_format
  format : image_format
  deriving DecidableEq, Repr

/-- The YUV image `yuv_image_t`, one constructor per overload used by
`push_frame`: two planes (luma, interleaved chroma) or three planes
(luma, chroma-a, chroma-b). -/
inductive yuv_image_t where
  | two_planes (y uv : color_plane) (format : image_format) (yuv : yuv_format_t)
  | three_planes (y u v : color_plane) (format : image_format) (yuv : yuv_format_t)
  deriving DecidableEq, Repr

/-- The planes a YUV image was built from, in constructor order. -/
def yuv_image_t.planes : yuv_image_t → List color_plane
  | .two_planes y uv _ _ => [y, uv]
  | .three_planes y u v _ _ => [y, u, v]

/-- The colour description a YUV image was built with. -/
def yuv_image_t.get_yuv_format : yuv_image_t → yuv_format_t
  | .two_planes _ _ _ yuv => yuv
  | .three_planes _ _ _ _ yuv => yuv

/-- The image descriptor a YUV image was built with. -/
def yuv_image_t.get_format : yuv_image_t → image_format
  | .two_planes _ _ format _ => format
  | .three_planes _ _ _ format _ => format

/-- The engine's frame type `full_image_t`, built from a packed image or from
a YUV image. -/
inductive full_image_t where
  | bpc8 (img : bpc8_image_t)
  | yuv (img : yuv_image_t)
  deriving DecidableEq, Repr

/-- The planes of a frame, in order. -/
def full_image_t.planes : full_image_t → List color_plane
  | .bpc8 img => [img.plane]
  | .yuv img => img.planes

namespace oep
namespace interfaces

/-- Modelled from the spec: the enumeration `bnb::oep::interfaces::image_format`
is declared in a header that is not part of the sources at hand. It has the 13
enumerators named by the switches of effect_player.cpp (5 packed-RGB, 4 NV12,
4 I420); `other raw` stands for any value of the enumeration type outside that
known set, which the switches send to their `default:` label. -/
inductive image_format where
  | bpc8_rgb
  | bpc8_bgr
  | bpc8_rgba
  | bpc8_bgra
  | bpc8_argb
  | nv12_bt601_full
  | nv12_bt601_video
  | nv12_bt709_full
  | nv12_bt709_video
  | i420_bt601_full
  | i420_bt601_video
  | i420_bt709_full
  | i420_bt709_video
  | other (raw : Nat)
  deriving DecidableEq, Repr

/-- Modelled from the spec: the enumeration `bnb::oep::interfaces::rotation`
is declared in a header that is not part of the sources at hand. It has the
four enumerators named by the switch of `make_bnb_image_format`; `other raw`
stands for any value outside them, for which that switch has no label. -/
inductive rotation where
  | deg0
  | deg90
  | deg180
  | deg270
  | other (raw : Nat)
  deriving DecidableEq, Repr

/-- Modelled from the spec: the pixel buffer interface behind
`pixel_buffer_sptr` is declared outside the sources at hand. A buffer has a
layout tag, signed 32-bit dimensions (the adapter converts them with
`static_cast<uint32_t>`) and an ordered sequence of plane handles. Nothing in
the type ties the number of planes to the layout tag. What the buffer's
accessor answers to a request for a plane it does not have is left open by the
sources, so it is a parameter of the buffer: `out_of_range` is `some handle`
when such a request is answered with a handle (a null one, say) and `none`
when it does not return. -/
structure pixel_buffer where
  format : image_format
  width : Int
  height : Int
  planes : List plane_sptr
  out_of_range : Option plane_sptr
  deriving DecidableEq, Repr

/-- Accessor `get_image_format()` of the pixel buffer. -/
def pixel_buffer.get_image_format (image : pixel_buffer) : image_format :=
  image.format

/-- Accessor `get_width()` of the pixel buffer. -/
def pixel_buffer.get_width (image : pixel_buffer) : Int :=
  image.width

/-- Accessor `get_height()` of the pixel buffer. -/
def pixel_buffer.get_height (image : pixel_buffer) : Int :=
  image.height

end interfaces

/-- Ways in which a call into the adapter can fail to complete: the
dereference of an absent (null) effect manager, and a plane request that the
pixel buffer's accessor does not return from. -/
inductive fault where
  | null_effect_manager
  | plane_out_of_range
  deriving DecidableEq, Repr

namespace interfaces

/-- Modelled from the spec: the pixel buffer implementation is outside the
sources at hand. `get_base_sptr_of_plane(n)` yields the handle of plane `n`;
for an index at or beyond the number of planes the answer is the buffer's
`out_of_range` parameter. -/
def pixel_buffer.get_base_sptr_of_plane (image : pixel_buffer) (plane_num : Nat) :
    Except fault plane_sptr :=
  match image.planes[plane_num]? with
  | some p => .ok p
  | none =>
    match image.out_of_range with
    | some p => .ok p
    | none => .error .plane_out_of_range

/-- Modelled from the spec: `get_base_sptr()` yields the handle of the base
plane, which is plane 0. -/
def pixel_buffer.get_base_sptr (image : pixel_buffer) : Except fault plane_sptr :=
  image.get_base_sptr_of_plane 0

end interfaces
end oep

namespace interfaces

/-- Surface axis of the lifecycle state. -/
inductive surface_state where
  | uninitialized
  | surface_active
  | surface_destroyed
  deriving DecidableEq, Repr

/-- Playback axis of the lifecycle state. -/
inductive playback_state where
  | stopped
  | playing
  | paused
  deriving DecidableEq, Repr

/-- One call received by the rendering engine or by the effect manager and
effect it hands out, with its arguments. -/
inductive engine_call where
  | surface_created (width height : Int)
  | surface_changed (width height : Int)
  | surface_destroyed
  | set_effect_size (width height : Int)
  | load (effect : String)
  | call_js_method (effect method param : String)
  | playback_pause
  | playback_play
  | playback_stop
  | push_frame (image : full_image_t)
  | draw
  deriving DecidableEq, Repr

/-- Modelled from the spec: the effect-management capability of the engine,
which is outside the sources at hand. It holds the effect (framebuffer) size
and the currently loaded effect, if any. -/
structure effect_manager where
  effect_size : Int × Int
  current_effect : Option String
  deriving DecidableEq, Repr

/-- Modelled from the spec: the rendering engine `bnb::interfaces::effect_player`
behind `m_ep`, which is outside the sources at hand, as a recording stub.
`manager` is what `effect_manager()` returns (`none` for a null pointer),
`surface` and `playback` are the two axes of the lifecycle state and `calls`
is the record of every call received so far, oldest first. -/
structure effect_player where
  manager : Option effect_manager
  surface : surface_state
  playback : playback_state
  calls : List engine_call
  deriving DecidableEq, Repr

namespace effect_player

/-- Modelled from the spec: `engine.effect_manager() → optional capability`. -/
def effect_manager (ep : effect_player) : Option interfaces.effect_manager :=
  ep.manager

/-- Modelled from the spec: `engine.surface_created(w,h)` makes the surface active. -/
def surface_created (ep : effect_player) (width height : Int) : effect_player :=
  { ep with surface := .surface_active
            calls := ep.calls ++ [.surface_created width height] }

/-- Modelled from the spec: `engine.surface_changed(w,h)` keeps the surface
state (`surface-active → surface-active`). -/
def surface_changed (ep : effect_player) (width height : Int) : effect_player :=
  { ep with calls := ep.calls ++ [.surface_changed width height] }

/-- Modelled from the spec: `engine.surface_destroyed()` moves the surface to
`surface-destroyed`. -/
def surface_destroyed (ep : effect_player) : effect_player :=
  { ep with surface := .surface_destroyed
            calls := ep.calls ++ [.surface_destroyed] }

/-- Modelled from the spec: `effect_manager.set_effect_size(w,h)` on the
manager `m` handed out by the engine `ep` stores the new framebuffer size. -/
def set_effect_size (ep : effect_player) (m : interfaces.effect_manager)
    (width height : Int) : effect_player :=
  { ep with manager := some { m with effect_size := (width, height) }
            calls := ep.calls ++ [.set_effect_size width height] }

/-- Modelled from the spec: `effect_manager.load(effect_id)` on the manager `m`
handed out by the engine `ep` makes `effect` the current effect. -/
def load (ep : effect_player) (m : interfaces.effect_manager)
    (effect : String) : effect_player :=
  { ep with manager := some { m with current_effect := some effect }
            calls := ep.calls ++ [.load effect] }

/-- Modelled from the spec: `effect.call_js_method(name, payload)` on the
loaded effect `effect`. -/
def call_js_method (ep : effect_player) (effect method param : String) : effect_player :=
  { ep with calls := ep.calls ++ [.call_js_method effect method param] }

/-- Modelled from the spec: `engine.playback_pause()`. -/
def playback_pause (ep : effect_player) : effect_player :=
  { ep with playback := .paused, calls := ep.calls ++ [.playback_pause] }

/-- Modelled from the spec: `engine.playback_play()`. -/
def playback_play (ep : effect_player) : effect_player :=
  { ep with playback := .playing, calls := ep.calls ++ [.playback_play] }

/-- Modelled from the spec: `engine.playback_stop()`. -/
def playback_stop (ep : effect_player) : effect_player :=
  { ep with playback := .stopped, calls := ep.calls ++ [.playback_stop] }

/-- Modelled from the spec: `engine.push_frame(image_descriptor)`. -/
def push_frame (ep : effect_player) (image : full_image_t) : effect_player :=
  { ep with calls := ep.calls ++ [.push_frame image] }

/-- The number of render calls the engine has received so far. -/
def render_calls (ep : effect_player) : Nat :=
  ep.calls.count .draw

/-- Modelled from the spec: `engine.render() → status` (negative = not ready,
non-negative = frame produced), the `draw()` of the engine. The stub reports
`render k` on the render call that follows `k` earlier ones. -/
def draw (ep : effect_player) (render : Nat → Int) : Int × effect_player :=
  (render ep.render_calls, { ep with calls := ep.calls ++ [.draw] })

/-- The effect (framebuffer) size recorded by the engine, when it has an
effect manager. -/
def framebuffer_size (ep : effect_player) : Option (Int × Int) :=
  ep.manager.map (fun m => m.effect_size)

/-- The frames handed to the engine's `push_frame` so far, oldest first. -/
def pushed_frames (ep : effect_player) : List full_image_t :=
  ep.calls.filterMap (fun c => match c with
    | .push_frame image => some image
    | _ => none)

end effect_player
end interfaces

namespace oep

/-- The adapter `bnb::oep::effect_player`: its engine `m_ep`, together with
the lines written to `std::cout` so far, oldest first. -/
structure effect_player where
  m_ep : bnb.interfaces.effect_player
  cout : List String
  deriving DecidableEq, Repr

/-- The conversion `static_cast<uint32_t>(x)` of a signed value. -/
def static_cast_uint32 (x : Int) : Nat :=
  (x % 2 ^ 32).toNat

namespace effect_player

/-- `effect_player::surface_created` (effect_player.cpp:47-52). The second
statement dereferences the pointer returned by `effect_manager()` without a
check. -/
def surface_created (self : effect_player) (width height : Int) :
    Except fault effect_player :=
  let ep := self.m_ep.surface_created width height
  match ep.effect_manager with
  | some m => .ok { self with m_ep := ep.set_effect_size m width height }
  | none => .error .null_effect_manager

/-- `effect_player::surface_changed` (effect_player.cpp:55-60). -/
def surface_changed (self : effect_player) (width height : Int) :
    Except fault effect_player :=
  let ep := self.m_ep.surface_changed width height
  match ep.effect_manager with
  | some m => .ok { self with m_ep := ep.set_effect_size m width height }
  | none => .error .null_effect_manager

/-- `effect_player::surface_destroyed` (effect_player.cpp:63-66). -/
def surface_destroyed (self : effect_player) : effect_player :=
  { self with m_ep := self.m_ep.surface_destroyed }

/-- `effect_player::load_effect` (effect_player.cpp:69-76): the returned
flag and the state after the call. -/
def load_effect (self : effect_player) (effect : String) : Bool × effect_player :=
  match self.m_ep.effect_manager with
  | some effect_manager => (true, { self with m_ep := self.m_ep.load effect_manager effect })
  | none => (false, self)

/-- `effect_player::call_js_method` (effect_player.cpp:79-93): the returned
flag and the state after the call. -/
def call_js_method (self : effect_player) (method param : String) :
    Bool × effect_player :=
  match self.m_ep.effect_manager with
  | some e_manager =>
    match e_manager.current_effect with
    | some effect =>
      (true, { self with m_ep := self.m_ep.call_js_method effect method param })
    | none =>
      (false, { self with cout := self.cout ++ ["[Error] effect not loaded"] })
  | none =>
    (false, { self with cout := self.cout ++ ["[Error] effect manager not initialized"] })

/-- `effect_player::pause` (effect_player.cpp:96-99). -/
def pause (self : effect_player) : effect_player :=
  { self with m_ep := self.m_ep.playback_pause }

/-- `effect_player::resume` (effect_player.cpp:102-105). -/
def resume (self : effect_player) : effect_player :=
  { self with m_ep := self.m_ep.playback_play }

/-- `effect_player::stop` (effect_player.cpp:108-111). -/
def stop (self : effect_player) : effect_player :=
  { self with m_ep := self.m_ep.playback_stop }

/-- A call into the threading library made by the adapter:
`std::this_thread::yield()` or `std::this_thread::sleep_for` with a duration
in milliseconds. -/
inductive thread_call where
  | yield
  | sleep_for (milliseconds : Nat)
  deriving DecidableEq, Repr

/-- `effect_player::draw` (effect_player.cpp:159-165) against an engine whose
render statuses are given by `render`. The loop has no bound of its own, so
the embedding takes the largest number of render attempts to follow as its
first argument: the result is `none` when the loop is still running after that
many attempts, and otherwise the adapter after the call together with the
threading calls made, oldest first. -/
def draw (render : Nat → Int) : Nat → effect_player → Option (effect_player × List thread_call)
  | 0, _ => none
  | attempts + 1, self =>
    let (status, ep) := self.m_ep.draw render
    if status < 0 then
      match draw render attempts { self with m_ep := ep } with
      | some (last, waits) => some (last, [.yield, .sleep_for 10] ++ waits)
      | none => none
    else
      some ({ self with m_ep := ep }, [])

/-- `effect_player::make_bnb_image_format` (effect_player.cpp:168-189). The
switch has no `default:` label, so any other orientation value leaves the
initial `deg_0` in place. -/
def make_bnb_image_format (image : interfaces.pixel_buffer)
    (orientation : interfaces.rotation) : bnb.image_format := Id.run do
  let mut camera_orient := bnb.camera_orientation.deg_0
  match orientation with
  | .deg0 => pure ()
  | .deg90 => camera_orient := bnb.camera_orientation.deg_90
  | .deg180 => camera_orient := bnb.camera_orientation.deg_180
  | .deg270 => camera_orient := bnb.camera_orientation.deg_270
  | .other _ => pure ()
  return { width := static_cast_uint32 image.get_width
           height := static_cast_uint32 image.get_height
           orientation := camera_orient
           require_mirroring := false
           face_orientation := 0
           fov := none }

/-- `effect_player::make_bnb_yuv_format` (effect_player.cpp:192-233). -/
def make_bnb_yuv_format (image : interfaces.pixel_buffer) : bnb.yuv_format_t := Id.run do
  let mut format := bnb.yuv_format.yuv_nv12
  let mut standard := bnb.color_std.bt601
  let mut range := bnb.color_range.full
  match image.get_image_format with
  | .nv12_bt601_full => pure ()
  | .nv12_bt601_video =>
    range := bnb.color_range.video
  | .nv12_bt709_full =>
    standard := bnb.color_std.bt709
  | .nv12_bt709_video =>
    range := bnb.color_range.video
    standard := bnb.color_std.bt709
  | .i420_bt601_full =>
    format := bnb.yuv_format.yuv_i420
  | .i420_bt601_video =>
    range := bnb.color_range.video
    format := bnb.yuv_format.yuv_i420
  | .i420_bt709_full =>
    format := bnb.yuv_format.yuv_i420
    standard := bnb.color_std.bt709
  | .i420_bt709_video =>
    range := bnb.color_range.video
    format := bnb.yuv_format.yuv_i420
    standard := bnb.color_std.bt709
  | _ => pure ()
  return { range := range, standard := standard, format := format }

/-- `effect_player::make_bnb_pixel_format` (effect_player.cpp:236-260). -/
def make_bnb_pixel_format (image : interfaces.pixel_buffer) :
    bnb.interfaces.pixel_format := Id.run do
  let mut fmt := bnb.interfaces.pixel_format.rgb
  match image.get_image_format with
  | .bpc8_rgb => pure ()
  | .bpc8_bgr => fmt := bnb.interfaces.pixel_format.bgr
  | .bpc8_rgba => fmt := bnb.interfaces.pixel_format.rgba
  | .bpc8_bgra => fmt := bnb.interfaces.pixel_format.bgra
  | .bpc8_argb => fmt := bnb.interfaces.pixel_format.argb
  | _ => pure ()
  return fmt

/-- `effect_player::push_frame` (effect_player.cpp:114-156). Every plane
handle an image is built from is requested from the buffer before the engine
is called; the outcome does not depend on the order of these requests. -/
def push_frame (self : effect_player) (image : interfaces.pixel_buffer)
    (image_orientation : interfaces.rotation) : Except fault effect_player := do
  let bnb_image_format := make_bnb_image_format image image_orientation
  match image.get_image_format with
  | .bpc8_rgb | .bpc8_bgr | .bpc8_rgba | .bpc8_bgra | .bpc8_argb =>
    let base ← image.get_base_sptr
    let frame := full_image_t.bpc8 ⟨⟨base⟩, make_bnb_pixel_format image, bnb_image_format⟩
    pure { self with m_ep := self.m_ep.push_frame frame }
  | .nv12_bt601_full | .nv12_bt601_video | .nv12_bt709_full | .nv12_bt709_video =>
    let plane0 ← image.get_base_sptr_of_plane 0
    let plane1 ← image.get_base_sptr_of_plane 1
    let frame := full_image_t.yuv
      (.two_planes ⟨plane0⟩ ⟨plane1⟩ bnb_image_format (make_bnb_yuv_format image))
    pure { self with m_ep := self.m_ep.push_frame frame }
  | .i420_bt601_full | .i420_bt601_video | .i420_bt709_full | .i420_bt709_video =>
    let plane0 ← image.get_base_sptr_of_plane 0
    let plane1 ← image.get_base_sptr_of_plane 1
    let plane2 ← image.get_base_sptr_of_plane 2
    let frame := full_image_t.yuv
      (.three_planes ⟨plane0⟩ ⟨plane1⟩ ⟨plane2⟩ bnb_image_format (make_bnb_yuv_format image))
    pure { self with m_ep := self.m_ep.push_frame frame }
  | _ => pure self

/-- One call of the surface or playback interface of the adapter. -/
inductive lifecycle_call where
  | surface_created (width height : Int)
  | surface_changed (width height : Int)
  | surface_destroyed
  | pause
  | resume
  | stop
  deriving DecidableEq, Repr

/-- The adapter method a `lifecycle_call` stands for, applied to `self`. -/
def apply (self : effect_player) : lifecycle_call → Except fault effect_player
  | .surface_created width height => self.surface_created width height
  | .surface_changed width height => self.surface_changed width height
  | .surface_destroyed => .ok self.surface_destroyed
  | .pause => .ok self.pause
  | .resume => .ok self.resume
  | .stop => .ok self.stop

/-- The calls of a sequence made one after the other, stopping at the first
one that does not complete. -/
def run (self : effect_player) : List lifecycle_call → Except fault effect_player
  | [] => .ok self
  | c :: cs =>
    match self.apply c with
    | .ok next => next.run cs
    | .error f => .error f

end effect_player

namespace interfaces

/-- The tags of the packed-RGB family. -/
def packed_rgb_tags : List image_format :=
  [.bpc8_rgb, .bpc8_bgr, .bpc8_rgba, .bpc8_bgra, .bpc8_argb]

/-- The tags of the semi-planar (NV12) YUV family. -/
def nv12_tags : List image_format :=
  [.nv12_bt601_full, .nv12_bt601_video, .nv12_bt709_full, .nv12_bt709_video]

/-- The tags of the fully-planar (I420) YUV family. -/
def i420_tags : List image_format :=
  [.i420_bt601_full, .i420_bt601_video, .i420_bt709_full, .i420_bt709_video]

/-- The 13 known layout tags. -/
def known_tags : List image_format :=
  packed_rgb_tags ++ nv12_tags ++ i420_tags

/-- The data model's plane count for a layout tag: 1 for packed-RGB, 2 for
semi-planar YUV, 3 for fully-planar YUV; a tag outside the known set has none. -/
def required_plane_count (t : image_format) : Option Nat :=
  if t ∈ packed_rgb_tags then some 1
  else if t ∈ nv12_tags then some 2
  else if t ∈ i420_tags then some 3
  else none

/-- The rotation mapping of the format classifier in degrees: 0, 90, 180, 270
for the four orientation tags and 0 for any other value. -/
def rotation.degrees : rotation → Nat
  | .deg0 => 0
  | .deg90 => 90
  | .deg180 => 180
  | .deg270 => 270
  | .other _ => 0

end interfaces

/-- The inverse lookup of the YUV table: the layout tag documented for a
(range, standard, plane-structure) triple. -/
def yuv_layout_tag : bnb.yuv_format_t → interfaces.image_format
  | ⟨.full, .bt601, .yuv_nv12⟩ => .nv12_bt601_full
  | ⟨.video, .bt601, .yuv_nv12⟩ => .nv12_bt601_video
  | ⟨.full, .bt709, .yuv_nv12⟩ => .nv12_bt709_full
  | ⟨.video, .bt709, .yuv_nv12⟩ => .nv12_bt709_video
  | ⟨.full, .bt601, .yuv_i420⟩ => .i420_bt601_full
  | ⟨.video, .bt601, .yuv_i420⟩ => .i420_bt601_video
  | ⟨.full, .bt709, .yuv_i420⟩ => .i420_bt709_full
  | ⟨.video, .bt709, .yuv_i420⟩ => .i420_bt709_video

/-- The case labels of the switch in `make_bnb_pixel_format`
(effect_player.cpp:242-255), each with the channel order its case ends with;
`none` for a tag without a case label, which goes to `default:`. -/
def pixel_format_case : interfaces.image_format → Option bnb.interfaces.pixel_format
  | .bpc8_rgb => some .rgb
  | .bpc8_bgr => some .bgr
  | .bpc8_rgba => some .rgba
  | .bpc8_bgra => some .bgra
  | .bpc8_argb => some .argb
  | _ => none

/-- The case labels of the switch in `make_bnb_yuv_format`
(effect_player.cpp:200-227), each with the (range, standard, plane-structure)
triple its case ends with; `none` for a tag without a case label, which goes
to `default:`. -/
def yuv_format_case : interfaces.image_format → Option bnb.yuv_format_t
  | .nv12_bt601_full => some ⟨.full, .bt601, .yuv_nv12⟩
  | .nv12_bt601_video => some ⟨.video, .bt601, .yuv_nv12⟩
  | .nv12_bt709_full => some ⟨.full, .bt709, .yuv_nv12⟩
  | .nv12_bt709_video => some ⟨.video, .bt709, .yuv_nv12⟩
  | .i420_bt601_full => some ⟨.full, .bt601, .yuv_i420⟩
  | .i420_bt601_video => some ⟨.video, .bt601, .yuv_i420⟩
  | .i420_bt709_full => some ⟨.full, .bt709, .yuv_i420⟩
  | .i420_bt709_video => some ⟨.video, .bt709, .yuv_i420⟩
  | _ => none

/-- The threading calls of `n` waits of the draw loop: each wait is a yield
followed by a sleep of 10 milliseconds. -/
def draw_waits : Nat → List effect_player.thread_call
  | 0 => []
  | n + 1 => [.yield, .sleep_for 10] ++ draw_waits n

/-- The surface size a lifecycle call announces, if it announces one. -/
def effect_player.lifecycle_call.surface_size :
    effect_player.lifecycle_call → Option (Int × Int)
  | .surface_created width height => some (width, height)
  | .surface_changed width height => some (width, height)
  | _ => none

/-- The size given by the most recent `surface_created` or `surface_changed`
of a call sequence, if there is one. -/
def last_surface_size (calls : List effect_player.lifecycle_call) : Option (Int × Int) :=
  (calls.filterMap effect_player.lifecycle_call.surface_size).getLast?

end oep
end bnb

/-! ## Theorems -/

namespace bnb.oep

open bnb.oep.interfaces

/-- C1: for every layout tag, `make_bnb_yuv_format` on a buffer with that tag
returns the (range, standard, plane-structure) triple of the table: each of the
8 YUV tags gets its documented triple, and every tag outside these 8 (every
packed-RGB tag and every value outside the known set) gets the all-defaults
triple (full, BT.601, NV12). -/
theorem make_bnb_yuv_format_table (image : pixel_buffer) :
    (image.get_image_format = .nv12_bt601_full →
      effect_player.make_bnb_yuv_format image = ⟨.full, .bt601, .yuv_nv12⟩) ∧
    (image.get_image_format = .nv12_bt601_video →
      effect_player.make_bnb_yuv_format image = ⟨.video, .bt601, .yuv_nv12⟩) ∧
    (image.get_image_format = .nv12_bt709_full →
      effect_player.make_bnb_yuv_format image = ⟨.full, .bt709, .yuv_nv12⟩) ∧
    (image.get_image_format = .nv12_bt709_video →
      effect_player.make_bnb_yuv_format image = ⟨.video, .bt709, .yuv_nv12⟩) ∧
    (image.get_image_format = .i420_bt601_full →
      effect_player.make_bnb_yuv_format image = ⟨.full, .bt601, .yuv_i420⟩) ∧
    (image.get_image_format = .i420_bt601_video →
      effect_player.make_bnb_yuv_format image = ⟨.video, .bt601, .yuv_i420⟩) ∧
    (image.get_image_format = .i420_bt709_full →
      effect_player.make_bnb_yuv_format image = ⟨.full, .bt709, .yuv_i420⟩) ∧
    (image.get_image_format = .i420_bt709_video →
      effect_player.make_bnb_yuv_format image = ⟨.video, .bt709, .yuv_i420⟩) ∧
    (image.get_image_format ∉ nv12_tags ++ i420_tags →
      effect_player.make_bnb_yuv_format image = ⟨.full, .bt601, .yuv_nv12⟩) := by
  refine ⟨?_, ?_, ?_, ?_, ?_, ?_, ?_, ?_, ?_⟩ <;> intro h
  all_goals first
    | (simp [effect_player.make_bnb_yuv_format, h, Id.run]; done)
    | (cases hf : image.get_image_format <;>
        simp [hf, nv12_tags, i420_tags] at h <;>
        simp [effect_player.make_bnb_yuv_format, hf, Id.run])

/-- Witness for C1 on an I420 BT.709 video-range buffer and on a packed RGB
buffer. -/
theorem make_bnb_yuv_format_table_witness :
    effect_player.make_bnb_yuv_format ⟨.i420_bt709_video, 640, 480, [1, 2, 3], none⟩
        = ⟨.video, .bt709, .yuv_i420⟩ ∧
      effect_player.make_bnb_yuv_format ⟨.bpc8_rgb, 640, 480, [1], none⟩
        = ⟨.full, .bt601, .yuv_nv12⟩ :=
  ⟨(make_bnb_yuv_format_table ⟨.i420_bt709_video, 640, 480, [1, 2, 3], none⟩).2.2.2.2.2.2.2.1 rfl,
   (make_bnb_yuv_format_table ⟨.bpc8_rgb, 640, 480, [1], none⟩).2.2.2.2.2.2.2.2 (by decide)⟩

/-- C2: for every layout tag, `make_bnb_pixel_format` on a buffer with that tag
returns rgb for bpc8_rgb, bgr for bpc8_bgr, rgba for bpc8_rgba, bgra for
bpc8_bgra, argb for bpc8_argb, and rgb for every tag outside these five (every
YUV tag and every value outside the known set); being a total function it
always returns. -/
theorem make_bnb_pixel_format_table (image : pixel_buffer) :
    (image.get_image_format = .bpc8_rgb →
      effect_player.make_bnb_pixel_format image = .rgb) ∧
    (image.get_image_format = .bpc8_bgr →
      effect_player.make_bnb_pixel_format image = .bgr) ∧
    (image.get_image_format = .bpc8_rgba →
      effect_player.make_bnb_pixel_format image = .rgba) ∧
    (image.get_image_format = .bpc8_bgra →
      effect_player.make_bnb_pixel_format image = .bgra) ∧
    (image.get_image_format = .bpc8_argb →
      effect_player.make_bnb_pixel_format image = .argb) ∧
    (image.get_image_format ∉ packed_rgb_tags →
      effect_player.make_bnb_pixel_format image = .rgb) := by
  refine ⟨?_, ?_, ?_, ?_, ?_, ?_⟩ <;> intro h
  all_goals first
    | (simp [effect_player.make_bnb_pixel_format, h, Id.run]; done)
    | (cases hf : image.get_image_format <;>
        simp [hf, packed_rgb_tags] at h <;>
        simp [effect_player.make_bnb_pixel_format, hf, Id.run])

/-- Witness for C2 on a BGRA buffer and on an NV12 buffer. -/
theorem make_bnb_pixel_format_table_witness :
    effect_player.make_bnb_pixel_format ⟨.bpc8_bgra, 640, 480, [1], none⟩ = .bgra ∧
      effect_player.make_bnb_pixel_format ⟨.nv12_bt601_full, 640, 480, [1, 2], none⟩ = .rgb :=
  ⟨(make_bnb_pixel_format_table ⟨.bpc8_bgra, 640, 480, [1], none⟩).2.2.2.1 rfl,
   (make_bnb_pixel_format_table ⟨.nv12_bt601_full, 640, 480, [1, 2], none⟩).2.2.2.2.2 (by decide)⟩

/-- On a packed-RGB tag, `push_frame` is the request for the base plane
followed by one push of the packed image built from it. -/
theorem push_frame_packed_rgb (self : effect_player) (image : pixel_buffer)
    (o : rotation) (h : image.get_image_format ∈ packed_rgb_tags) :
    self.push_frame image o =
      (image.get_base_sptr_of_plane 0).bind (fun base =>
        .ok { self with m_ep := (self.m_ep.push_frame
                (.bpc8 ⟨⟨base⟩, effect_player.make_bnb_pixel_format image,
                  effect_player.make_bnb_image_format image o⟩)) }) := by
  cases hf : image.get_image_format <;> simp [hf, packed_rgb_tags] at h <;>
    simp [effect_player.push_frame, hf, pixel_buffer.get_base_sptr, bind, pure, Except.pure]

/-- On an NV12 tag, `push_frame` is the requests for planes 0 and 1 followed
by one push of the two-plane YUV image built from them. -/
theorem push_frame_nv12 (self : effect_player) (image : pixel_buffer)
    (o : rotation) (h : image.get_image_format ∈ nv12_tags) :
    self.push_frame image o =
      (image.get_base_sptr_of_plane 0).bind (fun plane0 =>
        (image.get_base_sptr_of_plane 1).bind (fun plane1 =>
          .ok { self with m_ep := (self.m_ep.push_frame
                  (.yuv (.two_planes ⟨plane0⟩ ⟨plane1⟩
                    (effect_player.make_bnb_image_format image o)
                    (effect_player.make_bnb_yuv_format image)))) })) := by
  cases hf : image.get_image_format <;> simp [hf, nv12_tags] at h <;>
    simp [effect_player.push_frame, hf, bind, pure, Except.pure]

/-- On an I420 tag, `push_frame` is the requests for planes 0, 1 and 2
followed by one push of the three-plane YUV image built from them. -/
theorem push_frame_i420 (self : effect_player) (image : pixel_buffer)
    (o : rotation) (h : image.get_image_format ∈ i420_tags) :
    self.push_frame image o =
      (image.get_base_sptr_of_plane 0).bind (fun plane0 =>
        (image.get_base_sptr_of_plane 1).bind (fun plane1 =>
          (image.get_base_sptr_of_plane 2).bind (fun plane2 =>
            .ok { self with m_ep := (self.m_ep.push_frame
                    (.yuv (.three_planes ⟨plane0⟩ ⟨plane1⟩ ⟨plane2⟩
                      (effect_player.make_bnb_image_format image o)
                      (effect_player.make_bnb_yuv_format image)))) }))) := by
  cases hf : image.get_image_format <;> simp [hf, i420_tags] at h <;>
    simp [effect_player.push_frame, hf, bind, pure, Except.pure]

/-- On a tag outside the 13 known ones, `push_frame` returns with the adapter
and its engine untouched. -/
theorem push_frame_unknown (self : effect_player) (image : pixel_buffer)
    (o : rotation) (h : image.get_image_format ∉ known_tags) :
    self.push_frame image o = .ok self := by
  cases hf : image.get_image_format <;>
    simp [hf, known_tags, packed_rgb_tags, nv12_tags, i420_tags] at h
  simp [effect_player.push_frame, hf, pure, Except.pure]

/-- A plane request inside the buffer's plane sequence completes with the
plane at that index. -/
theorem get_base_sptr_of_plane_ok (image : pixel_buffer) (n : Nat) (p : plane_sptr)
    (h : image.planes[n]? = some p) : image.get_base_sptr_of_plane n = .ok p := by
  simp [pixel_buffer.get_base_sptr_of_plane, h]

/-- The data model's plane count on each of the three families. -/
theorem required_plane_count_family (t : interfaces.image_format) :
    (t ∈ packed_rgb_tags → required_plane_count t = some 1) ∧
    (t ∈ nv12_tags → required_plane_count t = some 2) ∧
    (t ∈ i420_tags → required_plane_count t = some 3) := by
  cases t <;> simp [required_plane_count, packed_rgb_tags, nv12_tags, i420_tags]

/-- A known tag lies in one of the three families. -/
theorem known_tags_family (t : interfaces.image_format) (h : t ∈ known_tags) :
    t ∈ packed_rgb_tags ∨ t ∈ nv12_tags ∨ t ∈ i420_tags := by
  simpa [known_tags, or_assoc] using h

/-- The conversion to `uint32_t` keeps a value that fits. -/
theorem static_cast_uint32_of_fits (x : Int) (h0 : 0 ≤ x) (h1 : x < 2 ^ 32) :
    (static_cast_uint32 x : Int) = x := by
  unfold static_cast_uint32
  rw [Int.emod_eq_of_lt h0 h1]
  exact Int.toNat_of_nonneg h0

/-- The rotation tag stored by `make_bnb_image_format` stands for the degrees
of the orientation argument. -/
theorem make_bnb_image_format_degrees (image : pixel_buffer) (o : rotation) :
    (effect_player.make_bnb_image_format image o).orientation.degrees = o.degrees := by
  cases o <;> rfl

/-- One more `push_frame` received by the engine is one more pushed frame. -/
theorem pushed_frames_push_frame (ep : bnb.interfaces.effect_player) (frame : full_image_t) :
    (ep.push_frame frame).pushed_frames = ep.pushed_frames ++ [frame] := by
  simp [bnb.interfaces.effect_player.pushed_frames, bnb.interfaces.effect_player.push_frame,
    List.filterMap_append]

/-- A packed-RGB buffer that has a base plane is pushed as the packed image
built from that plane. -/
theorem push_frame_packed_rgb_ok (self : effect_player) (image : pixel_buffer)
    (o : rotation) (base : plane_sptr) (h : image.get_image_format ∈ packed_rgb_tags)
    (hb : image.planes[0]? = some base) :
    self.push_frame image o =
      .ok { self with m_ep := (self.m_ep.push_frame
              (.bpc8 ⟨⟨base⟩, effect_player.make_bnb_pixel_format image,
                effect_player.make_bnb_image_format image o⟩)) } := by
  rw [push_frame_packed_rgb self image o h, get_base_sptr_of_plane_ok image 0 base hb]
  rfl

/-- An NV12 buffer that has planes 0 and 1 is pushed as the two-plane YUV image
built from them. -/
theorem push_frame_nv12_ok (self : effect_player) (image : pixel_buffer)
    (o : rotation) (p0 p1 : plane_sptr) (h : image.get_image_format ∈ nv12_tags)
    (h0 : image.planes[0]? = some p0) (h1 : image.planes[1]? = some p1) :
    self.push_frame image o =
      .ok { self with m_ep := (self.m_ep.push_frame
              (.yuv (.two_planes ⟨p0⟩ ⟨p1⟩ (effect_player.make_bnb_image_format image o)
                (effect_player.make_bnb_yuv_format image)))) } := by
  rw [push_frame_nv12 self image o h, get_base_sptr_of_plane_ok image 0 p0 h0,
    get_base_sptr_of_plane_ok image 1 p1 h1]
  rfl

/-- An I420 buffer that has planes 0, 1 and 2 is pushed as the three-plane YUV
image built from them. -/
theorem push_frame_i420_ok (self : effect_player) (image : pixel_buffer)
    (o : rotation) (p0 p1 p2 : plane_sptr) (h : image.get_image_format ∈ i420_tags)
    (h0 : image.planes[0]? = some p0) (h1 : image.planes[1]? = some p1)
    (h2 : image.planes[2]? = some p2) :
    self.push_frame image o =
      .ok { self with m_ep := (self.m_ep.push_frame
              (.yuv (.three_planes ⟨p0⟩ ⟨p1⟩ ⟨p2⟩ (effect_player.make_bnb_image_format image o)
                (effect_player.make_bnb_yuv_format image)))) } := by
  rw [push_frame_i420 self image o h, get_base_sptr_of_plane_ok image 0 p0 h0,
    get_base_sptr_of_plane_ok image 1 p1 h1, get_base_sptr_of_plane_ok image 2 p2 h2]
  rfl

/-- The width and height stored by `make_bnb_image_format` are the buffer's
dimensions converted to `uint32_t`, whatever the orientation. -/
theorem make_bnb_image_format_dims (image : pixel_buffer) (o : rotation) :
    (effect_player.make_bnb_image_format image o).width
        = static_cast_uint32 image.get_width ∧
      (effect_player.make_bnb_image_format image o).height
        = static_cast_uint32 image.get_height := by
  cases o <;> exact ⟨rfl, rfl⟩

/-- C3: for every buffer whose layout tag is outside the 13 known tags and
every orientation, `push_frame` completes and the engine receives no call at
all (so zero pushes); for every buffer whose tag is one of the 13 known tags and
whose plane count is the one its layout requires, `push_frame` completes and
the engine receives exactly one call, a `push_frame`. -/
theorem push_frame_push_count (self : effect_player) (image : pixel_buffer) (o : rotation) :
    (image.get_image_format ∉ known_tags →
      ∃ self', self.push_frame image o = .ok self' ∧
        self'.m_ep.calls = self.m_ep.calls ∧
        self'.m_ep.pushed_frames.length = self.m_ep.pushed_frames.length) ∧
    (image.get_image_format ∈ known_tags →
      required_plane_count image.get_image_format = some image.planes.length →
      ∃ self' frame, self.push_frame image o = .ok self' ∧
        self'.m_ep.calls = self.m_ep.calls ++ [.push_frame frame] ∧
        self'.m_ep.pushed_frames.length = self.m_ep.pushed_frames.length + 1) := by
  constructor
  · intro h
    exact ⟨self, push_frame_unknown self image o h, rfl, rfl⟩
  · intro hk hreq
    rcases known_tags_family _ hk with hp | hn | hi
    · rw [(required_plane_count_family _).1 hp] at hreq
      have hlen : image.planes.length = 1 := (Option.some.inj hreq).symm
      obtain ⟨p, hpl⟩ := List.length_eq_one.mp hlen
      exact ⟨_, _, push_frame_packed_rgb_ok self image o p hp (by simp [hpl]), rfl,
        by simp [pushed_frames_push_frame]⟩
    · rw [(required_plane_count_family _).2.1 hn] at hreq
      have hlen : image.planes.length = 2 := (Option.some.inj hreq).symm
      obtain ⟨p, q, hpl⟩ := List.length_eq_two.mp hlen
      exact ⟨_, _, push_frame_nv12_ok self image o p q hn (by simp [hpl]) (by simp [hpl]), rfl,
        by simp [pushed_frames_push_frame]⟩
    · rw [(required_plane_count_family _).2.2 hi] at hreq
      have hlen : image.planes.length = 3 := (Option.some.inj hreq).symm
      obtain ⟨p, q, r, hpl⟩ := List.length_eq_three.mp hlen
      exact ⟨_, _, push_frame_i420_ok self image o p q r hi (by simp [hpl]) (by simp [hpl])
        (by simp [hpl]), rfl, by simp [pushed_frames_push_frame]⟩

/-- Witness for C3: a buffer with an unknown tag is dropped, and a well-formed
NV12 buffer is pushed once. -/
theorem push_frame_push_count_witness :
    (∃ self', effect_player.push_frame ⟨⟨none, .uninitialized, .stopped, []⟩, []⟩
        ⟨.other 99, 640, 480, [1, 2], none⟩ (.other 7) = .ok self' ∧
        self'.m_ep.calls = [] ∧ self'.m_ep.pushed_frames.length = 0) ∧
    (∃ self' frame, effect_player.push_frame ⟨⟨none, .uninitialized, .stopped, []⟩, []⟩
        ⟨.nv12_bt601_full, 640, 480, [1, 2], none⟩ .deg0 = .ok self' ∧
        self'.m_ep.calls = [.push_frame frame] ∧ self'.m_ep.pushed_frames.length = 1) :=
  ⟨(push_frame_push_count ⟨⟨none, .uninitialized, .stopped, []⟩, []⟩
      ⟨.other 99, 640, 480, [1, 2], none⟩ (.other 7)).1 (by decide),
   (push_frame_push_count ⟨⟨none, .uninitialized, .stopped, []⟩, []⟩
      ⟨.nv12_bt601_full, 640, 480, [1, 2], none⟩ .deg0).2 (by decide) (by decide)⟩

/-- C4: for every buffer with a packed-RGB tag that has a base plane, and
every orientation, `push_frame` completes and hands the engine a single frame:
a packed image of one plane, the buffer's base plane, whose channel order is
`make_bnb_pixel_format` of the buffer and whose descriptor is
`make_bnb_image_format` of the buffer and the orientation; for dimensions in
the range of the descriptor's unsigned 32-bit members that descriptor carries
the buffer's width and height, and its rotation is the one the orientation
maps to. -/
theorem push_frame_packed_rgb_frame (self : effect_player) (image : pixel_buffer)
    (o : rotation) (base : plane_sptr)
    (htag : image.get_image_format ∈ packed_rgb_tags)
    (hbase : image.get_base_sptr = .ok base)
    (hw : 0 ≤ image.get_width ∧ image.get_width < 2 ^ 32)
    (hh : 0 ≤ image.get_height ∧ image.get_height < 2 ^ 32) :
    ∃ self' frame, self.push_frame image o = .ok self' ∧
      self'.m_ep.calls = self.m_ep.calls ++ [.push_frame (.bpc8 frame)] ∧
      (full_image_t.bpc8 frame).planes = [⟨base⟩] ∧
      frame.fmt = effect_player.make_bnb_pixel_format image ∧
      frame.format = effect_player.make_bnb_image_format image o ∧
      (frame.format.width : Int) = image.get_width ∧
      (frame.format.height : Int) = image.get_height ∧
      frame.format.orientation.degrees = o.degrees := by
  have hpush : self.push_frame image o =
      .ok { self with m_ep := (self.m_ep.push_frame
              (.bpc8 ⟨⟨base⟩, effect_player.make_bnb_pixel_format image,
                effect_player.make_bnb_image_format image o⟩)) } := by
    have hb : image.get_base_sptr_of_plane 0 = .ok base := hbase
    rw [push_frame_packed_rgb self image o htag, hb]
    rfl
  refine ⟨_, _, hpush, rfl, rfl, rfl, rfl, ?_, ?_, make_bnb_image_format_degrees image o⟩
  · show ((effect_player.make_bnb_image_format image o).width : Int) = image.get_width
    rw [(make_bnb_image_format_dims image o).1]
    exact static_cast_uint32_of_fits _ hw.1 hw.2
  · show ((effect_player.make_bnb_image_format image o).height : Int) = image.get_height
    rw [(make_bnb_image_format_dims image o).2]
    exact static_cast_uint32_of_fits _ hh.1 hh.2

/-- Witness for C4: an RGBA 1920x1080 buffer with orientation 90 degrees is
pushed as one plane with channel order RGBA, width 1920, height 1080 and
rotation 90. -/
theorem push_frame_packed_rgb_frame_witness :
    ∃ self' frame, effect_player.push_frame ⟨⟨none, .uninitialized, .stopped, []⟩, []⟩
        ⟨.bpc8_rgba, 1920, 1080, [5], none⟩ .deg90 = .ok self' ∧
      self'.m_ep.calls = [] ++ [.push_frame (.bpc8 frame)] ∧
      (full_image_t.bpc8 frame).planes = [⟨5⟩] ∧
      frame.fmt = effect_player.make_bnb_pixel_format ⟨.bpc8_rgba, 1920, 1080, [5], none⟩ ∧
      frame.format =
        effect_player.make_bnb_image_format ⟨.bpc8_rgba, 1920, 1080, [5], none⟩ .deg90 ∧
      (frame.format.width : Int) = 1920 ∧
      (frame.format.height : Int) = 1080 ∧
      frame.format.orientation.degrees = 90 :=
  push_frame_packed_rgb_frame ⟨⟨none, .uninitialized, .stopped, []⟩, []⟩
    ⟨.bpc8_rgba, 1920, 1080, [5], none⟩ .deg90 5 (by decide) rfl
    ⟨by decide, by decide⟩ ⟨by decide, by decide⟩

/-- C5: for every buffer with one of the 4 NV12 tags that has planes 0 and 1,
`push_frame` completes and hands the engine a single frame, a YUV image of
exactly 2 planes (buffer plane 0 then plane 1); for every buffer with one of
the 4 I420 tags that has planes 0, 1 and 2 it is a YUV image of exactly 3
planes (buffer planes 0, 1, 2 in that order); in both cases the pushed
(range, standard, plane-structure) is `make_bnb_yuv_format` of the buffer. -/
theorem push_frame_yuv_frame (self : effect_player) (image : pixel_buffer) (o : rotation) :
    (image.get_image_format ∈ nv12_tags →
      ∀ p0 p1, image.get_base_sptr_of_plane 0 = .ok p0 →
        image.get_base_sptr_of_plane 1 = .ok p1 →
        ∃ self' img, self.push_frame image o = .ok self' ∧
          self'.m_ep.calls = self.m_ep.calls ++ [.push_frame (.yuv img)] ∧
          img.planes = [⟨p0⟩, ⟨p1⟩] ∧
          img.get_yuv_format = effect_player.make_bnb_yuv_format image ∧
          img.get_format = effect_player.make_bnb_image_format image o) ∧
    (image.get_image_format ∈ i420_tags →
      ∀ p0 p1 p2, image.get_base_sptr_of_plane 0 = .ok p0 →
        image.get_base_sptr_of_plane 1 = .ok p1 →
        image.get_base_sptr_of_plane 2 = .ok p2 →
        ∃ self' img, self.push_frame image o = .ok self' ∧
          self'.m_ep.calls = self.m_ep.calls ++ [.push_frame (.yuv img)] ∧
          img.planes = [⟨p0⟩, ⟨p1⟩, ⟨p2⟩] ∧
          img.get_yuv_format = effect_player.make_bnb_yuv_format image ∧
          img.get_format = effect_player.make_bnb_image_format image o) := by
  constructor
  · intro htag p0 p1 h0 h1
    rw [push_frame_nv12 self image o htag, h0, h1]
    exact ⟨_, _, rfl, rfl, rfl, rfl, rfl⟩
  · intro htag p0 p1 p2 h0 h1 h2
    rw [push_frame_i420 self image o htag, h0, h1, h2]
    exact ⟨_, _, rfl, rfl, rfl, rfl, rfl⟩

/-- Witness for C5: an nv12_bt709_video buffer is pushed as 2 planes with
standard BT.709 and range video, and an i420_bt601_full buffer as 3 planes. -/
theorem push_frame_yuv_frame_witness :
    (∃ self' img, effect_player.push_frame ⟨⟨none, .uninitialized, .stopped, []⟩, []⟩
        ⟨.nv12_bt709_video, 640, 480, [11, 12], none⟩ .deg0 = .ok self' ∧
      self'.m_ep.calls = [] ++ [.push_frame (.yuv img)] ∧
      img.planes = [⟨11⟩, ⟨12⟩] ∧
      img.get_yuv_format =
        effect_player.make_bnb_yuv_format ⟨.nv12_bt709_video, 640, 480, [11, 12], none⟩ ∧
      img.get_format =
        effect_player.make_bnb_image_format ⟨.nv12_bt709_video, 640, 480, [11, 12], none⟩ .deg0) ∧
    effect_player.make_bnb_yuv_format ⟨.nv12_bt709_video, 640, 480, [11, 12], none⟩
      = ⟨.video, .bt709, .yuv_nv12⟩ ∧
    (∃ self' img, effect_player.push_frame ⟨⟨none, .uninitialized, .stopped, []⟩, []⟩
        ⟨.i420_bt601_full, 640, 480, [21, 22, 23], none⟩ .deg180 = .ok self' ∧
      self'.m_ep.calls = [] ++ [.push_frame (.yuv img)] ∧
      img.planes = [⟨21⟩, ⟨22⟩, ⟨23⟩] ∧
      img.get_yuv_format =
        effect_player.make_bnb_yuv_format ⟨.i420_bt601_full, 640, 480, [21, 22, 23], none⟩ ∧
      img.get_format =
        effect_player.make_bnb_image_format
          ⟨.i420_bt601_full, 640, 480, [21, 22, 23], none⟩ .deg180) :=
  ⟨(push_frame_yuv_frame ⟨⟨none, .uninitialized, .stopped, []⟩, []⟩
      ⟨.nv12_bt709_video, 640, 480, [11, 12], none⟩ .deg0).1 (by decide) 11 12 rfl rfl,
   rfl,
   (push_frame_yuv_frame ⟨⟨none, .uninitialized, .stopped, []⟩, []⟩
      ⟨.i420_bt601_full, 640, 480, [21, 22, 23], none⟩ .deg180).2 (by decide) 21 22 23 rfl rfl rfl⟩

/-- The most recent announced surface size of a sequence with one more call
in front: that of the rest if it has one, else that of the first call. -/
theorem last_surface_size_cons (c : effect_player.lifecycle_call)
    (cs : List effect_player.lifecycle_call) :
    last_surface_size (c :: cs) = (last_surface_size cs).or c.surface_size := by
  unfold last_surface_size
  cases hc : c.surface_size with
  | none => simp [List.filterMap_cons, hc]
  | some d =>
    simp only [List.filterMap_cons, hc, List.getLast?_cons]
    cases (List.filterMap effect_player.lifecycle_call.surface_size cs).getLast? <;> rfl

/-- With an effect manager, `surface_created` completes: the engine gets the
surface event and then the resize. -/
theorem surface_created_with_manager (self : effect_player)
    (m : bnb.interfaces.effect_manager) (hm : self.m_ep.effect_manager = some m)
    (w h : Int) :
    self.surface_created w h =
      .ok { self with m_ep := ((self.m_ep.surface_created w h).set_effect_size m w h) } := by
  have hm' : self.m_ep.manager = some m := hm
  simp [effect_player.surface_created, bnb.interfaces.effect_player.effect_manager,
    bnb.interfaces.effect_player.surface_created, hm']

/-- With an effect manager, `surface_changed` completes: the engine gets the
surface event and then the resize. -/
theorem surface_changed_with_manager (self : effect_player)
    (m : bnb.interfaces.effect_manager) (hm : self.m_ep.effect_manager = some m)
    (w h : Int) :
    self.surface_changed w h =
      .ok { self with m_ep := ((self.m_ep.surface_changed w h).set_effect_size m w h) } := by
  have hm' : self.m_ep.manager = some m := hm
  simp [effect_player.surface_changed, bnb.interfaces.effect_player.effect_manager,
    bnb.interfaces.effect_player.surface_changed, hm']

/-- One lifecycle call on an adapter whose engine has an effect manager: the
call completes, the engine still has an effect manager, the framebuffer size
is the announced one if the call announces a size and is unchanged otherwise,
and the surface can only have become active by a call that announces a size. -/
theorem apply_with_manager (self : effect_player) (m : bnb.interfaces.effect_manager)
    (hm : self.m_ep.effect_manager = some m) (c : effect_player.lifecycle_call) :
    ∃ next m', self.apply c = .ok next ∧ next.m_ep.effect_manager = some m' ∧
      next.m_ep.framebuffer_size = (c.surface_size).or self.m_ep.framebuffer_size ∧
      (next.m_ep.surface = .surface_active →
        self.m_ep.surface = .surface_active ∨ c.surface_size.isSome) := by
  cases c with
  | surface_created w h =>
    exact ⟨_, { m with effect_size := (w, h) }, surface_created_with_manager self m hm w h,
      rfl, rfl, fun _ => Or.inr rfl⟩
  | surface_changed w h =>
    exact ⟨_, { m with effect_size := (w, h) }, surface_changed_with_manager self m hm w h,
      rfl, rfl, fun _ => Or.inr rfl⟩
  | surface_destroyed =>
    refine ⟨_, m, rfl, hm, rfl, fun h => ?_⟩
    simp [effect_player.surface_destroyed,
      bnb.interfaces.effect_player.surface_destroyed] at h
  | pause => exact ⟨_, m, rfl, hm, rfl, fun h => Or.inl h⟩
  | resume => exact ⟨_, m, rfl, hm, rfl, fun h => Or.inl h⟩
  | stop => exact ⟨_, m, rfl, hm, rfl, fun h => Or.inl h⟩

/-- A sequence of lifecycle calls on an adapter whose engine has an effect
manager: every call completes, the framebuffer size ends as the most recent
announced size if there is one and is unchanged otherwise, and the surface can
only end active, if it did not start so, when a size was announced. -/
theorem run_with_manager (calls : List effect_player.lifecycle_call) :
    ∀ (self : effect_player) (m : bnb.interfaces.effect_manager),
      self.m_ep.effect_manager = some m →
      ∃ last, self.run calls = .ok last ∧
        last.m_ep.framebuffer_size = (last_surface_size calls).or self.m_ep.framebuffer_size ∧
        (last.m_ep.surface = .surface_active →
          self.m_ep.surface = .surface_active ∨ (last_surface_size calls).isSome) := by
  induction calls with
  | nil =>
    intro self m _
    exact ⟨self, rfl, rfl, fun h => Or.inl h⟩
  | cons c cs ih =>
    intro self m hm
    obtain ⟨next, m', hnext, hm', hfb, hsurf⟩ := apply_with_manager self m hm c
    obtain ⟨last, hrun, hfb', hsurf'⟩ := ih next m' hm'
    refine ⟨last, ?_, ?_, ?_⟩
    · simp [effect_player.run, hnext, hrun]
    · rw [hfb', hfb, last_surface_size_cons]
      cases last_surface_size cs <;> rfl
    · intro hact
      rw [last_surface_size_cons]
      rcases hsurf' hact with h1 | h1
      · rcases hsurf h1 with h2 | h2
        · exact Or.inl h2
        · right
          cases last_surface_size cs <;> simp [h2]
      · right
        cases hl : last_surface_size cs with
        | none => simp [hl] at h1
        | some d => rfl

/-- C7: against an engine that records its effect (framebuffer) size, that is,
one with an effect manager: `surface_created(w,h)` completes with framebuffer
size `(w,h)`, a subsequent `surface_changed(w2,h2)` completes with `(w2,h2)`,
and in each the surface event reaches the engine before the resize; after every
sequence of surface and playback calls all calls have completed, the
framebuffer size is the size of the most recent `surface_created` or
`surface_changed` when there is one, and there is one whenever the surface,
not active at the start, is active at the end. -/
theorem framebuffer_size_follows_surface (self : effect_player)
    (m : bnb.interfaces.effect_manager) (hm : self.m_ep.effect_manager = some m) :
    (∀ w h, ∃ s1, self.surface_created w h = .ok s1 ∧
      s1.m_ep.framebuffer_size = some (w, h) ∧
      s1.m_ep.surface = .surface_active ∧
      s1.m_ep.calls = self.m_ep.calls ++ [.surface_created w h, .set_effect_size w h] ∧
      ∀ w2 h2, ∃ s2, s1.surface_changed w2 h2 = .ok s2 ∧
        s2.m_ep.framebuffer_size = some (w2, h2) ∧
        s2.m_ep.surface = .surface_active ∧
        s2.m_ep.calls = s1.m_ep.calls ++ [.surface_changed w2 h2, .set_effect_size w2 h2]) ∧
    (∀ calls, ∃ last, self.run calls = .ok last ∧
      (∀ d, last_surface_size calls = some d → last.m_ep.framebuffer_size = some d) ∧
      (self.m_ep.surface ≠ .surface_active → last.m_ep.surface = .surface_active →
        ∃ d, last_surface_size calls = some d ∧ last.m_ep.framebuffer_size = some d)) := by
  constructor
  · intro w h
    refine ⟨_, surface_created_with_manager self m hm w h, rfl, rfl, ?_, ?_⟩
    · simp [bnb.interfaces.effect_player.set_effect_size,
        bnb.interfaces.effect_player.surface_created]
    · intro w2 h2
      refine ⟨_, surface_changed_with_manager
        { self with m_ep := ((self.m_ep.surface_created w h).set_effect_size m w h) }
        { m with effect_size := (w, h) } rfl w2 h2, rfl, rfl, ?_⟩
      simp [bnb.interfaces.effect_player.set_effect_size,
        bnb.interfaces.effect_player.surface_changed]
  · intro calls
    obtain ⟨last, hrun, hfb, hsurf⟩ := run_with_manager calls self m hm
    refine ⟨last, hrun, ?_, ?_⟩
    · intro d hd
      rw [hfb, hd]
      rfl
    · intro hstart hact
      rcases hsurf hact with h1 | h1
      · exact absurd h1 hstart
      · cases hl : last_surface_size calls with
        | none => simp [hl] at h1
        | some d =>
          refine ⟨d, rfl, ?_⟩
          rw [hfb, hl]
          rfl

/-- Witness for C7 on a freshly constructed adapter (1x1 framebuffer, no
surface yet): after created 640x480, destroyed, created 800x600 and pause the
surface is active and the framebuffer size is 800x600. -/
theorem framebuffer_size_follows_surface_witness :
    ∃ last, effect_player.run ⟨⟨some ⟨(1, 1), none⟩, .uninitialized, .stopped, []⟩, []⟩
        [.surface_created 640 480, .surface_destroyed, .surface_created 800 600, .pause]
        = .ok last ∧
      last.m_ep.surface = .surface_active ∧
      last.m_ep.framebuffer_size = some (800, 600) := by
  obtain ⟨last, hrun, _, hact⟩ :=
    (framebuffer_size_follows_surface
      ⟨⟨some ⟨(1, 1), none⟩, .uninitialized, .stopped, []⟩, []⟩ ⟨(1, 1), none⟩ rfl).2
      [.surface_created 640 480, .surface_destroyed, .surface_created 800 600, .pause]
  have hsurf : last.m_ep.surface = .surface_active := by
    have h2 : effect_player.run ⟨⟨some ⟨(1, 1), none⟩, .uninitialized, .stopped, []⟩, []⟩
        [.surface_created 640 480, .surface_destroyed, .surface_created 800 600, .pause]
        = .ok last := hrun
    simp [effect_player.run, effect_player.apply, effect_player.surface_created,
      effect_player.surface_destroyed, effect_player.pause,
      bnb.interfaces.effect_player.effect_manager,
      bnb.interfaces.effect_player.surface_created,
      bnb.interfaces.effect_player.surface_destroyed,
      bnb.interfaces.effect_player.set_effect_size,
      bnb.interfaces.effect_player.playback_pause] at h2
    rw [← h2]
  obtain ⟨d, hd, hfb⟩ := hact (by decide) hsurf
  have hd' : d = (800, 600) := by
    have : last_surface_size
        [.surface_created 640 480, .surface_destroyed, .surface_created 800 600, .pause]
        = some (800, 600) := by decide
    rw [this] at hd
    exact (Option.some.inj hd).symm
  exact ⟨last, hrun, hsurf, by rw [hfb, hd']⟩

/-- C8: for every method name and payload, `call_js_method` returns true if
and only if the engine has an effect manager and that manager has a currently
loaded effect; in that case the engine side receives exactly one more call,
the `call_js_method` on that effect with the same name and payload, and in
both failure cases (no effect manager; effect manager but no loaded effect) it
returns false and the engine side receives no call. -/
theorem call_js_method_result (self : effect_player) (method param : String) :
    ((self.call_js_method method param).1 = true ↔
      ∃ m effect, self.m_ep.effect_manager = some m ∧ m.current_effect = some effect) ∧
    (∀ m effect, self.m_ep.effect_manager = some m → m.current_effect = some effect →
      (self.call_js_method method param).1 = true ∧
      (self.call_js_method method param).2.m_ep.calls =
        self.m_ep.calls ++ [.call_js_method effect method param]) ∧
    (self.m_ep.effect_manager = none →
      (self.call_js_method method param).1 = false ∧
      (self.call_js_method method param).2.m_ep = self.m_ep) ∧
    (∀ m, self.m_ep.effect_manager = some m → m.current_effect = none →
      (self.call_js_method method param).1 = false ∧
      (self.call_js_method method param).2.m_ep = self.m_ep) := by
  unfold effect_player.call_js_method
  cases hm : self.m_ep.effect_manager with
  | none => simp
  | some m =>
    cases he : m.current_effect with
    | none =>
      simp [he]
      intro m1 e1 h
      subst h
      simp [he]
    | some effect =>
      simp [he, bnb.interfaces.effect_player.call_js_method]
      intro m1 e1 h h2
      subst h
      rw [he] at h2
      exact Option.some.inj h2

/-- Witness for C8: with a manager and the loaded effect "fx" the call is
forwarded once; without a manager, and with a manager but no effect, it is not. -/
theorem call_js_method_result_witness :
    ((effect_player.call_js_method
        ⟨⟨some ⟨(1, 1), some "fx"⟩, .uninitialized, .stopped, []⟩, []⟩ "onTap" "1").1 = true ∧
      (effect_player.call_js_method
        ⟨⟨some ⟨(1, 1), some "fx"⟩, .uninitialized, .stopped, []⟩, []⟩ "onTap" "1").2.m_ep.calls
        = [] ++ [.call_js_method "fx" "onTap" "1"]) ∧
    ((effect_player.call_js_method
        ⟨⟨none, .uninitialized, .stopped, []⟩, []⟩ "onTap" "1").1 = false ∧
      (effect_player.call_js_method
        ⟨⟨none, .uninitialized, .stopped, []⟩, []⟩ "onTap" "1").2.m_ep
        = ⟨none, .uninitialized, .stopped, []⟩) ∧
    ((effect_player.call_js_method
        ⟨⟨some ⟨(1, 1), none⟩, .uninitialized, .stopped, []⟩, []⟩ "onTap" "1").1 = false ∧
      (effect_player.call_js_method
        ⟨⟨some ⟨(1, 1), none⟩, .uninitialized, .stopped, []⟩, []⟩ "onTap" "1").2.m_ep
        = ⟨some ⟨(1, 1), none⟩, .uninitialized, .stopped, []⟩) :=
  ⟨(call_js_method_result ⟨⟨some ⟨(1, 1), some "fx"⟩, .uninitialized, .stopped, []⟩, []⟩
      "onTap" "1").2.1 ⟨(1, 1), some "fx"⟩ "fx" rfl rfl,
   (call_js_method_result ⟨⟨none, .uninitialized, .stopped, []⟩, []⟩
      "onTap" "1").2.2.1 rfl,
   (call_js_method_result ⟨⟨some ⟨(1, 1), none⟩, .uninitialized, .stopped, []⟩, []⟩
      "onTap" "1").2.2.2 ⟨(1, 1), none⟩ rfl rfl⟩

/-- C9, as stated, fails: the value `call_js_method` returns when the engine
has no effect manager is the value it returns when there is an effect manager
but no loaded effect, namely false. -/
theorem call_js_method_failures_counterexample :
    (effect_player.call_js_method
        ⟨⟨none, .uninitialized, .stopped, []⟩, []⟩ "onTap" "1").1 =
      (effect_player.call_js_method
        ⟨⟨some ⟨(1, 1), none⟩, .uninitialized, .stopped, []⟩, []⟩ "onTap" "1").1 :=
  rfl

/-- C9, amended: `call_js_method` returns the same value, false, for both
failure causes and leaves the engine as it was; the two causes are told apart
only by the line written to standard output, "[Error] effect manager not
initialized" when no effect manager exists and "[Error] effect not loaded"
when an effect manager exists but no effect is loaded, and these two lines
differ. -/
theorem call_js_method_failures (self : effect_player) (method param : String) :
    (self.m_ep.effect_manager = none →
      self.call_js_method method param =
        (false, { self with
          cout := self.cout ++ ["[Error] effect manager not initialized"] })) ∧
    (∀ m, self.m_ep.effect_manager = some m → m.current_effect = none →
      self.call_js_method method param =
        (false, { self with cout := self.cout ++ ["[Error] effect not loaded"] })) ∧
    "[Error] effect manager not initialized" ≠ "[Error] effect not loaded" := by
  refine ⟨?_, ?_, by decide⟩
  · intro hm
    simp [effect_player.call_js_method, hm]
  · intro m hm he
    simp [effect_player.call_js_method, hm, he]

/-- Witness for the amended C9 on an adapter without an effect manager and on
one with a manager but no loaded effect. -/
theorem call_js_method_failures_witness :
    effect_player.call_js_method
        ⟨⟨none, .uninitialized, .stopped, []⟩, []⟩ "onTap" "1" =
      (false, ⟨⟨none, .uninitialized, .stopped, []⟩,
        [] ++ ["[Error] effect manager not initialized"]⟩) ∧
    effect_player.call_js_method
        ⟨⟨some ⟨(1, 1), none⟩, .uninitialized, .stopped, []⟩, []⟩ "onTap" "1" =
      (false, ⟨⟨some ⟨(1, 1), none⟩, .uninitialized, .stopped, []⟩,
        [] ++ ["[Error] effect not loaded"]⟩) :=
  ⟨(call_js_method_failures ⟨⟨none, .uninitialized, .stopped, []⟩, []⟩ "onTap" "1").1 rfl,
   (call_js_method_failures ⟨⟨some ⟨(1, 1), none⟩, .uninitialized, .stopped, []⟩, []⟩
      "onTap" "1").2.1 ⟨(1, 1), none⟩ rfl rfl⟩

/-- C10: for every effect id, `load_effect` returns true if and only if the
engine's effect manager is available; when it is, the effect manager receives
exactly one more call, the load of that id, and when it is not, the adapter
and its engine are left as they were, so no load is issued. -/
theorem load_effect_result (self : effect_player) (effect : String) :
    ((self.load_effect effect).1 = true ↔ ∃ m, self.m_ep.effect_manager = some m) ∧
    (∀ m, self.m_ep.effect_manager = some m →
      (self.load_effect effect).1 = true ∧
      (self.load_effect effect).2.m_ep.calls = self.m_ep.calls ++ [.load effect]) ∧
    (self.m_ep.effect_manager = none →
      (self.load_effect effect).1 = false ∧ (self.load_effect effect).2 = self) := by
  unfold effect_player.load_effect
  cases hm : self.m_ep.effect_manager with
  | none => simp
  | some m => simp [bnb.interfaces.effect_player.load]

/-- Witness for C10: with an effect manager the load of "fx" is issued once
and the result is true; without one the result is false and nothing changes. -/
theorem load_effect_result_witness :
    ((effect_player.load_effect
        ⟨⟨some ⟨(1, 1), none⟩, .uninitialized, .stopped, []⟩, []⟩ "fx").1 = true ∧
      (effect_player.load_effect
        ⟨⟨some ⟨(1, 1), none⟩, .uninitialized, .stopped, []⟩, []⟩ "fx").2.m_ep.calls
        = [] ++ [.load "fx"]) ∧
    ((effect_player.load_effect ⟨⟨none, .uninitialized, .stopped, []⟩, []⟩ "fx").1 = false ∧
      (effect_player.load_effect ⟨⟨none, .uninitialized, .stopped, []⟩, []⟩ "fx").2
        = ⟨⟨none, .uninitialized, .stopped, []⟩, []⟩) :=
  ⟨(load_effect_result ⟨⟨some ⟨(1, 1), none⟩, .uninitialized, .stopped, []⟩, []⟩ "fx").2.1
      ⟨(1, 1), none⟩ rfl,
   (load_effect_result ⟨⟨none, .uninitialized, .stopped, []⟩, []⟩ "fx").2.2 rfl⟩

/-- One render call received by the engine is one more counted render call. -/
theorem render_calls_draw (ep : bnb.interfaces.effect_player) (render : Nat → Int) :
    (ep.draw render).2.render_calls = ep.render_calls + 1 := by
  simp [bnb.interfaces.effect_player.draw, bnb.interfaces.effect_player.render_calls,
    List.count_append]

/-- When the next `n` render calls report a negative status and the one after
them a non-negative status, the draw loop followed for more than `n` attempts
returns after `n` waits, the engine having received `n + 1` render calls and
nothing else. -/
theorem draw_returns (render : Nat → Int) (n : Nat) :
    ∀ (self : effect_player) (attempts : Nat),
      (∀ i, i < n → render (self.m_ep.render_calls + i) < 0) →
      0 ≤ render (self.m_ep.render_calls + n) →
      n < attempts →
      effect_player.draw render attempts self =
        some ({ self with m_ep := { self.m_ep with
                  calls := self.m_ep.calls ++ List.replicate (n + 1) .draw } },
              draw_waits n) := by
  induction n with
  | zero =>
    intro self attempts _ hok hlt
    obtain ⟨a, rfl⟩ : ∃ a, attempts = a + 1 := ⟨attempts - 1, by omega⟩
    have h0 : ¬ render self.m_ep.render_calls < 0 := by simpa using hok
    simp [effect_player.draw, bnb.interfaces.effect_player.draw, h0, draw_waits]
  | succ n ih =>
    intro self attempts hneg hok hlt
    obtain ⟨a, rfl⟩ : ∃ a, attempts = a + 1 := ⟨attempts - 1, by omega⟩
    have h0 : render self.m_ep.render_calls < 0 := by simpa using hneg 0 (by omega)
    have hrc : ({ self with m_ep := (self.m_ep.draw render).2 } : effect_player).m_ep.render_calls
        = self.m_ep.render_calls + 1 := render_calls_draw self.m_ep render
    have hstep := ih { self with m_ep := (self.m_ep.draw render).2 } a
      (by
        intro i hi
        rw [hrc]
        have := hneg (i + 1) (by omega)
        rwa [show self.m_ep.render_calls + 1 + i = self.m_ep.render_calls + (i + 1) by omega])
      (by
        rw [hrc]
        rwa [show self.m_ep.render_calls + 1 + n = self.m_ep.render_calls + (n + 1) by omega])
      (by omega)
    have hdraw : effect_player.draw render (a + 1) self =
        match effect_player.draw render a { self with m_ep := (self.m_ep.draw render).2 } with
        | some (last, waits) => some (last, [.yield, .sleep_for 10] ++ waits)
        | none => none := by
      simp [effect_player.draw, bnb.interfaces.effect_player.draw, h0]
    rw [hdraw, hstep]
    simp [bnb.interfaces.effect_player.draw, draw_waits, List.replicate_succ]

/-- While the render calls so far have all reported a negative status, the
draw loop has not returned. -/
theorem draw_still_running (render : Nat → Int) (attempts : Nat) :
    ∀ (self : effect_player),
      (∀ i, i < attempts → render (self.m_ep.render_calls + i) < 0) →
      effect_player.draw render attempts self = none := by
  induction attempts with
  | zero =>
    intro self _
    rfl
  | succ a ih =>
    intro self hneg
    have h0 : render self.m_ep.render_calls < 0 := by simpa using hneg 0 (by omega)
    have hrc : ({ self with m_ep := (self.m_ep.draw render).2 } : effect_player).m_ep.render_calls
        = self.m_ep.render_calls + 1 := render_calls_draw self.m_ep render
    have hstep := ih { self with m_ep := (self.m_ep.draw render).2 }
      (by
        intro i hi
        rw [hrc]
        have := hneg (i + 1) (by omega)
        rwa [show self.m_ep.render_calls + 1 + i = self.m_ep.render_calls + (i + 1) by omega])
    have hdraw : effect_player.draw render (a + 1) self =
        match effect_player.draw render a { self with m_ep := (self.m_ep.draw render).2 } with
        | some (last, waits) => some (last, [.yield, .sleep_for 10] ++ waits)
        | none => none := by
      simp [effect_player.draw, bnb.interfaces.effect_player.draw, h0]
    rw [hdraw, hstep]

/-- The threading calls of `n` waits are `n` yields and `n` sleeps. -/
theorem draw_waits_count (n : Nat) :
    (draw_waits n).count .yield = n ∧ (draw_waits n).count (.sleep_for 10) = n ∧
      (draw_waits n).length = 2 * n := by
  induction n with
  | zero => simp [draw_waits]
  | succ n ih =>
    obtain ⟨h1, h2, h3⟩ := ih
    refine ⟨?_, ?_, ?_⟩
    · simp [draw_waits, List.count_cons, h1]
    · simp [draw_waits, List.count_cons, h2]
    · simp [draw_waits, h3]
      omega

/-- C11: for every `n`, against an engine whose next `n` render calls report
a negative status and whose render call after them reports a non-negative
status (zero included), `draw()` terminates: followed for more than `n`
attempts it returns, the engine has then received exactly `n + 1` render calls
and nothing else, exactly `n` waits (a yield and a 10 ms sleep each) were made,
and the last render call is the one with the non-negative status; followed for
`n` attempts or fewer it has not returned yet. -/
theorem draw_retries_until_ready (render : Nat → Int) (n : Nat) (self : effect_player)
    (hneg : ∀ i, i < n → render (self.m_ep.render_calls + i) < 0)
    (hok : 0 ≤ render (self.m_ep.render_calls + n)) :
    (∀ attempts, n < attempts →
      ∃ last waits, effect_player.draw render attempts self = some (last, waits) ∧
        last.m_ep.calls = self.m_ep.calls ++ List.replicate (n + 1) .draw ∧
        last.m_ep.render_calls = self.m_ep.render_calls + (n + 1) ∧
        waits = draw_waits n ∧
        waits.count .yield = n ∧ waits.count (.sleep_for 10) = n ∧ waits.length = 2 * n ∧
        0 ≤ render (last.m_ep.render_calls - 1)) ∧
    (∀ attempts, attempts ≤ n → effect_player.draw render attempts self = none) := by
  constructor
  · intro attempts hlt
    refine ⟨_, _, draw_returns render n self attempts hneg hok hlt, rfl, ?_, rfl,
      (draw_waits_count n).1, (draw_waits_count n).2.1, (draw_waits_count n).2.2, ?_⟩
    · simp [bnb.interfaces.effect_player.render_calls, List.count_append]
    · have hrc : ({ self.m_ep with calls := self.m_ep.calls ++ List.replicate (n + 1) .draw } :
          bnb.interfaces.effect_player).render_calls = self.m_ep.render_calls + (n + 1) := by
        simp [bnb.interfaces.effect_player.render_calls, List.count_append]
      show 0 ≤ render (({ self.m_ep with
          calls := self.m_ep.calls ++ List.replicate (n + 1) .draw } :
          bnb.interfaces.effect_player).render_calls - 1)
      rw [hrc]
      exact hok
  · intro attempts hle
    exact draw_still_running render attempts self (fun i hi => hneg i (by omega))

/-- Witness for C11: an engine that is not ready on its first two render calls
and ready (status 0) on the third; `draw()` followed for up to 5 attempts
returns after 3 render calls and 2 waits. -/
theorem draw_retries_until_ready_witness :
    ∃ last waits, effect_player.draw (fun k => if k < 2 then -1 else 0) 5
        ⟨⟨none, .uninitialized, .stopped, []⟩, []⟩ = some (last, waits) ∧
      last.m_ep.calls = [] ++ List.replicate (2 + 1) .draw ∧
      last.m_ep.render_calls = 0 + (2 + 1) ∧
      waits = draw_waits 2 ∧
      waits.count .yield = 2 ∧ waits.count (.sleep_for 10) = 2 ∧ waits.length = 2 * 2 ∧
      (0 : Int) ≤ (fun k => if k < 2 then -1 else 0) (last.m_ep.render_calls - 1) :=
  (draw_retries_until_ready (fun k => if k < 2 then -1 else 0) 2
    ⟨⟨none, .uninitialized, .stopped, []⟩, []⟩
    (by
      intro i hi
      have h0 : (⟨none, .uninitialized, .stopped, []⟩ :
          bnb.interfaces.effect_player).render_calls = 0 := rfl
      simp [h0, hi])
    (by decide)).1 5 (by decide)

/-- C12: the rotation placed in the image descriptor by
`make_bnb_image_format` is 0 for deg0, 90 for deg90, 180 for deg180, 270 for
deg270 and 0 for any orientation value outside these four; it depends on the
orientation argument only, being the same for every buffer; and the
descriptor's width and height are the buffer's width and height, for
dimensions in the range of the descriptor's unsigned 32-bit members. -/
theorem make_bnb_image_format_rotation (image : pixel_buffer) :
    (effect_player.make_bnb_image_format image .deg0).orientation = .deg_0 ∧
    (effect_player.make_bnb_image_format image .deg90).orientation = .deg_90 ∧
    (effect_player.make_bnb_image_format image .deg180).orientation = .deg_180 ∧
    (effect_player.make_bnb_image_format image .deg270).orientation = .deg_270 ∧
    (∀ raw, (effect_player.make_bnb_image_format image (.other raw)).orientation = .deg_0) ∧
    (∀ o, (effect_player.make_bnb_image_format image o).orientation.degrees = o.degrees) ∧
    (∀ o (image2 : pixel_buffer),
      (effect_player.make_bnb_image_format image o).orientation =
        (effect_player.make_bnb_image_format image2 o).orientation) ∧
    (∀ o, 0 ≤ image.get_width → image.get_width < 2 ^ 32 →
      ((effect_player.make_bnb_image_format image o).width : Int) = image.get_width) ∧
    (∀ o, 0 ≤ image.get_height → image.get_height < 2 ^ 32 →
      ((effect_player.make_bnb_image_format image o).height : Int) = image.get_height) := by
  refine ⟨rfl, rfl, rfl, rfl, fun _ => rfl, make_bnb_image_format_degrees image, ?_, ?_, ?_⟩
  · intro o image2
    cases o <;> rfl
  · intro o h0 h1
    rw [(make_bnb_image_format_dims image o).1]
    exact static_cast_uint32_of_fits _ h0 h1
  · intro o h0 h1
    rw [(make_bnb_image_format_dims image o).2]
    exact static_cast_uint32_of_fits _ h0 h1

/-- Witness for C12 on a 1280x720 buffer with orientation 270 degrees. -/
theorem make_bnb_image_format_rotation_witness :
    ((effect_player.make_bnb_image_format ⟨.bpc8_rgb, 1280, 720, [1], none⟩ .deg270).width : Int)
        = 1280 ∧
      ((effect_player.make_bnb_image_format ⟨.bpc8_rgb, 1280, 720, [1], none⟩ .deg270).height : Int)
        = 720 ∧
      (effect_player.make_bnb_image_format ⟨.bpc8_rgb, 1280, 720, [1], none⟩
        .deg270).orientation.degrees = 270 :=
  ⟨(make_bnb_image_format_rotation ⟨.bpc8_rgb, 1280, 720, [1], none⟩).2.2.2.2.2.2.2.1 .deg270
      (by decide) (by decide),
   (make_bnb_image_format_rotation ⟨.bpc8_rgb, 1280, 720, [1], none⟩).2.2.2.2.2.2.2.2 .deg270
      (by decide) (by decide),
   (make_bnb_image_format_rotation ⟨.bpc8_rgb, 1280, 720, [1], none⟩).2.2.2.2.2.1 .deg270⟩

/-- The plane structure `make_bnb_yuv_format` reports is NV12 on the NV12 tags
and I420 on the I420 tags. -/
theorem make_bnb_yuv_format_plane_structure (image : pixel_buffer) :
    (image.get_image_format ∈ nv12_tags →
      (effect_player.make_bnb_yuv_format image).format = .yuv_nv12) ∧
    (image.get_image_format ∈ i420_tags →
      (effect_player.make_bnb_yuv_format image).format = .yuv_i420) := by
  constructor <;> intro h <;>
    cases hf : image.get_image_format <;>
    simp [hf, nv12_tags, i420_tags] at h <;>
    simp [effect_player.make_bnb_yuv_format, hf, Id.run]

/-- On the 8 YUV tags the inverse lookup undoes `make_bnb_yuv_format`. -/
theorem yuv_layout_tag_make_bnb_yuv_format (image : pixel_buffer)
    (h : image.get_image_format ∈ nv12_tags ++ i420_tags) :
    yuv_layout_tag (effect_player.make_bnb_yuv_format image) = image.get_image_format := by
  cases hf : image.get_image_format <;>
    simp [hf, nv12_tags, i420_tags] at h <;>
    simp [effect_player.make_bnb_yuv_format, hf, Id.run, yuv_layout_tag]

/-- C13: `make_bnb_yuv_format` is injective on the 8 YUV layout tags: two
buffers with YUV tags that get the same (range, standard, plane-structure)
triple have the same tag; and an inverse lookup from triple to tag exists,
whose composition with `make_bnb_yuv_format` is the identity on the 8 tags. -/
theorem make_bnb_yuv_format_injective (image1 image2 : pixel_buffer)
    (h1 : image1.get_image_format ∈ nv12_tags ++ i420_tags)
    (h2 : image2.get_image_format ∈ nv12_tags ++ i420_tags) :
    (effect_player.make_bnb_yuv_format image1 = effect_player.make_bnb_yuv_format image2 →
      image1.get_image_format = image2.get_image_format) ∧
    (∃ inverse : bnb.yuv_format_t → interfaces.image_format,
      inverse (effect_player.make_bnb_yuv_format image1) = image1.get_image_format ∧
      inverse (effect_player.make_bnb_yuv_format image2) = image2.get_image_format ∧
      ∀ image : pixel_buffer, image.get_image_format ∈ nv12_tags ++ i420_tags →
        inverse (effect_player.make_bnb_yuv_format image) = image.get_image_format) := by
  constructor
  · intro heq
    rw [← yuv_layout_tag_make_bnb_yuv_format image1 h1,
      ← yuv_layout_tag_make_bnb_yuv_format image2 h2, heq]
  · exact ⟨yuv_layout_tag, yuv_layout_tag_make_bnb_yuv_format image1 h1,
      yuv_layout_tag_make_bnb_yuv_format image2 h2, yuv_layout_tag_make_bnb_yuv_format⟩

/-- Witness for C13 on an nv12_bt709_full and an i420_bt709_full buffer, whose
triples differ in the plane structure. -/
theorem make_bnb_yuv_format_injective_witness :
    (effect_player.make_bnb_yuv_format ⟨.nv12_bt709_full, 640, 480, [1, 2], none⟩ =
        effect_player.make_bnb_yuv_format ⟨.i420_bt709_full, 640, 480, [1, 2, 3], none⟩ →
      interfaces.image_format.nv12_bt709_full = interfaces.image_format.i420_bt709_full) ∧
    (∃ inverse : bnb.yuv_format_t → interfaces.image_format,
      inverse (effect_player.make_bnb_yuv_format ⟨.nv12_bt709_full, 640, 480, [1, 2], none⟩)
        = .nv12_bt709_full ∧
      inverse (effect_player.make_bnb_yuv_format ⟨.i420_bt709_full, 640, 480, [1, 2, 3], none⟩)
        = .i420_bt709_full ∧
      ∀ image : pixel_buffer, image.get_image_format ∈ nv12_tags ++ i420_tags →
        inverse (effect_player.make_bnb_yuv_format image) = image.get_image_format) :=
  make_bnb_yuv_format_injective ⟨.nv12_bt709_full, 640, 480, [1, 2], none⟩
    ⟨.i420_bt709_full, 640, 480, [1, 2, 3], none⟩ (by decide) (by decide)

/-- The surface calls that complete leave the playback state as it was. -/
theorem surface_calls_keep_playback (self : effect_player) (w h : Int) :
    (∀ s, self.surface_created w h = .ok s → s.m_ep.playback = self.m_ep.playback) ∧
    (∀ s, self.surface_changed w h = .ok s → s.m_ep.playback = self.m_ep.playback) ∧
    self.surface_destroyed.m_ep.playback = self.m_ep.playback := by
  refine ⟨?_, ?_, rfl⟩
  · intro s hs
    cases hm : self.m_ep.manager with
    | none =>
      simp [effect_player.surface_created, bnb.interfaces.effect_player.effect_manager,
        bnb.interfaces.effect_player.surface_created, hm] at hs
    | some m =>
      rw [surface_created_with_manager self m hm w h] at hs
      rw [← Except.ok.inj hs]
      rfl
  · intro s hs
    cases hm : self.m_ep.manager with
    | none =>
      simp [effect_player.surface_changed, bnb.interfaces.effect_player.effect_manager,
        bnb.interfaces.effect_player.surface_changed, hm] at hs
    | some m =>
      rw [surface_changed_with_manager self m hm w h] at hs
      rw [← Except.ok.inj hs]
      rfl

/-- C14: the playback axis is independent of the surface axis. In every state
of the adapter, with or without a surface ever created, `resume()` sets the
playback state to playing, `pause()` to paused and `stop()` to stopped, each by
exactly one call forwarded to the engine and without any check, and each leaves
the surface state and the framebuffer size unchanged; conversely
`surface_created`, `surface_changed` and `surface_destroyed` leave the playback
state unchanged, and with an effect manager the first two complete. -/
theorem playback_independent_of_surface (self : effect_player) :
    (self.resume.m_ep.playback = .playing ∧
      self.resume.m_ep.calls = self.m_ep.calls ++ [.playback_play] ∧
      self.resume.m_ep.surface = self.m_ep.surface ∧
      self.resume.m_ep.framebuffer_size = self.m_ep.framebuffer_size) ∧
    (self.pause.m_ep.playback = .paused ∧
      self.pause.m_ep.calls = self.m_ep.calls ++ [.playback_pause] ∧
      self.pause.m_ep.surface = self.m_ep.surface ∧
      self.pause.m_ep.framebuffer_size = self.m_ep.framebuffer_size) ∧
    (self.stop.m_ep.playback = .stopped ∧
      self.stop.m_ep.calls = self.m_ep.calls ++ [.playback_stop] ∧
      self.stop.m_ep.surface = self.m_ep.surface ∧
      self.stop.m_ep.framebuffer_size = self.m_ep.framebuffer_size) ∧
    self.surface_destroyed.m_ep.playback = self.m_ep.playback ∧
    (∀ w h s, self.surface_created w h = .ok s → s.m_ep.playback = self.m_ep.playback) ∧
    (∀ w h s, self.surface_changed w h = .ok s → s.m_ep.playback = self.m_ep.playback) ∧
    (∀ m, self.m_ep.effect_manager = some m → ∀ w h,
      (∃ s, self.surface_created w h = .ok s ∧ s.m_ep.playback = self.m_ep.playback) ∧
      (∃ s, self.surface_changed w h = .ok s ∧ s.m_ep.playback = self.m_ep.playback)) := by
  refine ⟨⟨rfl, rfl, rfl, rfl⟩, ⟨rfl, rfl, rfl, rfl⟩, ⟨rfl, rfl, rfl, rfl⟩, rfl,
    fun w h => (surface_calls_keep_playback self w h).1,
    fun w h => (surface_calls_keep_playback self w h).2.1, ?_⟩
  intro m hm w h
  exact ⟨⟨_, surface_created_with_manager self m hm w h, rfl⟩,
    ⟨_, surface_changed_with_manager self m hm w h, rfl⟩⟩

/-- Witness for C14: on an adapter that never had a surface `resume()` sets
the playback state to playing, and on a playing adapter with an effect manager
`surface_created` completes and leaves it playing. -/
theorem playback_independent_of_surface_witness :
    (effect_player.resume ⟨⟨none, .uninitialized, .stopped, []⟩, []⟩).m_ep.playback
        = .playing ∧
      (effect_player.resume ⟨⟨none, .uninitialized, .stopped, []⟩, []⟩).m_ep.surface
        = .uninitialized ∧
      ∃ s, effect_player.surface_created
          ⟨⟨some ⟨(1, 1), none⟩, .uninitialized, .playing, []⟩, []⟩ 640 480 = .ok s ∧
        s.m_ep.playback = .playing :=
  ⟨(playback_independent_of_surface ⟨⟨none, .uninitialized, .stopped, []⟩, []⟩).1.1,
   (playback_independent_of_surface ⟨⟨none, .uninitialized, .stopped, []⟩, []⟩).1.2.2.1,
   ((playback_independent_of_surface
      ⟨⟨some ⟨(1, 1), none⟩, .uninitialized, .playing, []⟩, []⟩).2.2.2.2.2.2
      ⟨(1, 1), none⟩ rfl 640 480).1⟩

/-- C15: a failed `load_effect` is local: whenever `load_effect` returns false,
the adapter and its engine (surface state, framebuffer size, playback state,
loaded effect, calls received) are exactly what they were before the call, so
every later operation behaves as if the failed call had not been made. -/
theorem load_effect_failure_is_local (self : effect_player) (effect : String)
    (h : (self.load_effect effect).1 = false) :
    (self.load_effect effect).2 = self ∧
    (∀ calls, (self.load_effect effect).2.run calls = self.run calls) ∧
    (∀ next, (self.load_effect effect).2.load_effect next = self.load_effect next) ∧
    (∀ method param, (self.load_effect effect).2.call_js_method method param =
      self.call_js_method method param) ∧
    (∀ image o, (self.load_effect effect).2.push_frame image o = self.push_frame image o) ∧
    (∀ render attempts, effect_player.draw render attempts (self.load_effect effect).2 =
      effect_player.draw render attempts self) := by
  have hsame : (self.load_effect effect).2 = self := by
    unfold effect_player.load_effect at h ⊢
    cases hm : self.m_ep.effect_manager with
    | none => rfl
    | some m => simp [hm] at h
  rw [hsame]
  exact ⟨rfl, fun _ => rfl, fun _ => rfl, fun _ _ => rfl, fun _ _ => rfl, fun _ _ => rfl⟩

/-- Witness for C15 on a playing adapter with an active surface whose engine
has no effect manager. -/
theorem load_effect_failure_is_local_witness :
    (effect_player.load_effect ⟨⟨none, .surface_active, .playing, []⟩, []⟩ "fx").2
      = ⟨⟨none, .surface_active, .playing, []⟩, []⟩ :=
  (load_effect_failure_is_local ⟨⟨none, .surface_active, .playing, []⟩, []⟩ "fx" rfl).1

/-- C16: `surface_created` and `surface_changed` use the engine's effect
manager without the availability check of `load_effect` and `call_js_method`.
When the effect manager is available they complete for every width and height;
they fail to complete only when it is absent, and then with the null effect
manager fault, where `load_effect` and `call_js_method` return false instead. -/
theorem surface_calls_need_effect_manager (self : effect_player) (w h : Int) :
    (∀ m, self.m_ep.effect_manager = some m →
      (∃ s, self.surface_created w h = .ok s) ∧ (∃ s, self.surface_changed w h = .ok s)) ∧
    (∀ f, self.surface_created w h = .error f →
      self.m_ep.effect_manager = none ∧ f = .null_effect_manager) ∧
    (∀ f, self.surface_changed w h = .error f →
      self.m_ep.effect_manager = none ∧ f = .null_effect_manager) ∧
    (self.m_ep.effect_manager = none →
      self.surface_created w h = .error .null_effect_manager ∧
      self.surface_changed w h = .error .null_effect_manager ∧
      (∀ effect, (self.load_effect effect).1 = false) ∧
      (∀ method param, (self.call_js_method method param).1 = false)) := by
  refine ⟨?_, ?_, ?_, ?_⟩
  · intro m hm
    exact ⟨⟨_, surface_created_with_manager self m hm w h⟩,
      ⟨_, surface_changed_with_manager self m hm w h⟩⟩
  · intro f hf
    cases hm : self.m_ep.effect_manager with
    | none =>
      have hm' : self.m_ep.manager = none := hm
      simp [effect_player.surface_created, bnb.interfaces.effect_player.effect_manager,
        bnb.interfaces.effect_player.surface_created, hm'] at hf
      exact ⟨rfl, hf.symm⟩
    | some m =>
      rw [surface_created_with_manager self m hm w h] at hf
      cases hf
  · intro f hf
    cases hm : self.m_ep.effect_manager with
    | none =>
      have hm' : self.m_ep.manager = none := hm
      simp [effect_player.surface_changed, bnb.interfaces.effect_player.effect_manager,
        bnb.interfaces.effect_player.surface_changed, hm'] at hf
      exact ⟨rfl, hf.symm⟩
    | some m =>
      rw [surface_changed_with_manager self m hm w h] at hf
      cases hf
  · intro hm
    have hm' : self.m_ep.manager = none := hm
    refine ⟨?_, ?_, ?_, ?_⟩
    · simp [effect_player.surface_created, bnb.interfaces.effect_player.effect_manager,
        bnb.interfaces.effect_player.surface_created, hm']
    · simp [effect_player.surface_changed, bnb.interfaces.effect_player.effect_manager,
        bnb.interfaces.effect_player.surface_changed, hm']
    · intro effect
      simp [effect_player.load_effect, hm]
    · intro method param
      simp [effect_player.call_js_method, hm]

/-- Witness for C16: with an effect manager `surface_created` and
`surface_changed` complete; without one `surface_created` stops at the null
effect manager. -/
theorem surface_calls_need_effect_manager_witness :
    ((∃ s, effect_player.surface_created
        ⟨⟨some ⟨(1, 1), none⟩, .uninitialized, .stopped, []⟩, []⟩ 640 480 = .ok s) ∧
      (∃ s, effect_player.surface_changed
        ⟨⟨some ⟨(1, 1), none⟩, .uninitialized, .stopped, []⟩, []⟩ 640 480 = .ok s)) ∧
    effect_player.surface_created ⟨⟨none, .uninitialized, .stopped, []⟩, []⟩ 640 480
      = .error .null_effect_manager :=
  ⟨(surface_calls_need_effect_manager
      ⟨⟨some ⟨(1, 1), none⟩, .uninitialized, .stopped, []⟩, []⟩ 640 480).1 ⟨(1, 1), none⟩ rfl,
   ((surface_calls_need_effect_manager
      ⟨⟨none, .uninitialized, .stopped, []⟩, []⟩ 640 480).2.2.2 rfl).1⟩

/-- Every tag is in one of the three families or outside the known tags. -/
theorem tag_family_or_unknown (t : interfaces.image_format) :
    t ∈ packed_rgb_tags ∨ t ∈ nv12_tags ∨ t ∈ i420_tags ∨ t ∉ known_tags := by
  cases t <;> simp [known_tags, packed_rgb_tags, nv12_tags, i420_tags]

/-- The three families are pairwise disjoint. -/
theorem tag_families_disjoint (t : interfaces.image_format) :
    (t ∈ packed_rgb_tags → t ∉ nv12_tags ∧ t ∉ i420_tags) ∧
    (t ∈ nv12_tags → t ∉ packed_rgb_tags ∧ t ∉ i420_tags) ∧
    (t ∈ i420_tags → t ∉ packed_rgb_tags ∧ t ∉ nv12_tags) := by
  cases t <;> simp [packed_rgb_tags, nv12_tags, i420_tags]

/-- What a completed `push_frame` has done, by the family of the layout tag:
one packed frame for a packed-RGB tag, one two-plane YUV frame for an NV12 tag,
one three-plane YUV frame for an I420 tag, nothing for any other tag. -/
theorem push_frame_ok_cases (self self' : effect_player) (image : pixel_buffer)
    (o : rotation) (h : self.push_frame image o = .ok self') :
    (image.get_image_format ∈ packed_rgb_tags ∧ ∃ base,
      self' = { self with m_ep := (self.m_ep.push_frame
        (.bpc8 ⟨⟨base⟩, effect_player.make_bnb_pixel_format image,
          effect_player.make_bnb_image_format image o⟩)) }) ∨
    (image.get_image_format ∈ nv12_tags ∧ ∃ p0 p1,
      self' = { self with m_ep := (self.m_ep.push_frame
        (.yuv (.two_planes ⟨p0⟩ ⟨p1⟩ (effect_player.make_bnb_image_format image o)
          (effect_player.make_bnb_yuv_format image)))) }) ∨
    (image.get_image_format ∈ i420_tags ∧ ∃ p0 p1 p2,
      self' = { self with m_ep := (self.m_ep.push_frame
        (.yuv (.three_planes ⟨p0⟩ ⟨p1⟩ ⟨p2⟩ (effect_player.make_bnb_image_format image o)
          (effect_player.make_bnb_yuv_format image)))) }) ∨
    (image.get_image_format ∉ known_tags ∧ self' = self) := by
  rcases tag_family_or_unknown image.get_image_format with hp | hn | hi | hu
  · left
    refine ⟨hp, ?_⟩
    rw [push_frame_packed_rgb self image o hp] at h
    cases h0 : image.get_base_sptr_of_plane 0 with
    | error f => simp [h0, Except.bind] at h
    | ok base =>
      rw [h0] at h
      exact ⟨base, (Except.ok.inj h).symm⟩
  · right; left
    refine ⟨hn, ?_⟩
    rw [push_frame_nv12 self image o hn] at h
    cases h0 : image.get_base_sptr_of_plane 0 with
    | error f => simp [h0, Except.bind] at h
    | ok p0 =>
      cases h1 : image.get_base_sptr_of_plane 1 with
      | error f => simp [h0, h1, Except.bind] at h
      | ok p1 =>
        rw [h0, h1] at h
        exact ⟨p0, p1, (Except.ok.inj h).symm⟩
  · right; right; left
    refine ⟨hi, ?_⟩
    rw [push_frame_i420 self image o hi] at h
    cases h0 : image.get_base_sptr_of_plane 0 with
    | error f => simp [h0, Except.bind] at h
    | ok p0 =>
      cases h1 : image.get_base_sptr_of_plane 1 with
      | error f => simp [h0, h1, Except.bind] at h
      | ok p1 =>
        cases h2 : image.get_base_sptr_of_plane 2 with
        | error f => simp [h0, h1, h2, Except.bind] at h
        | ok p2 =>
          rw [h0, h1, h2] at h
          exact ⟨p0, p1, p2, (Except.ok.inj h).symm⟩
  · right; right; right
    rw [push_frame_unknown self image o hu] at h
    exact ⟨hu, (Except.ok.inj h).symm⟩

/-- `make_bnb_pixel_format` against its case labels: it returns the order of
the case label of the tag when there is one and rgb, the initial value,
otherwise; the tags with a case label are the packed-RGB tags; and it returns
something other than rgb exactly on the packed-RGB tags other than bpc8_rgb,
whose own case keeps rgb. -/
theorem make_bnb_pixel_format_cases (image : pixel_buffer) :
    effect_player.make_bnb_pixel_format image =
      (pixel_format_case image.get_image_format).getD .rgb ∧
    (image.get_image_format ∈ packed_rgb_tags ↔
      (pixel_format_case image.get_image_format).isSome) ∧
    (effect_player.make_bnb_pixel_format image ≠ .rgb ↔
      image.get_image_format ∈ packed_rgb_tags ∧ image.get_image_format ≠ .bpc8_rgb) := by
  cases hf : image.get_image_format <;>
    simp [effect_player.make_bnb_pixel_format, hf, Id.run, pixel_format_case, packed_rgb_tags]

/-- `make_bnb_yuv_format` against its case labels: it returns the triple of
the case label of the tag when there is one and the three initial values
otherwise; the tags with a case label are the 8 YUV tags; and it returns
something other than the initial values exactly on the YUV tags other than
nv12_bt601_full, whose own case keeps them. -/
theorem make_bnb_yuv_format_cases (image : pixel_buffer) :
    effect_player.make_bnb_yuv_format image =
      (yuv_format_case image.get_image_format).getD ⟨.full, .bt601, .yuv_nv12⟩ ∧
    (image.get_image_format ∈ nv12_tags ++ i420_tags ↔
      (yuv_format_case image.get_image_format).isSome) ∧
    (effect_player.make_bnb_yuv_format image ≠ ⟨.full, .bt601, .yuv_nv12⟩ ↔
      image.get_image_format ∈ nv12_tags ++ i420_tags ∧
        image.get_image_format ≠ .nv12_bt601_full) := by
  cases hf : image.get_image_format <;>
    simp [effect_player.make_bnb_yuv_format, hf, Id.run, yuv_format_case, nv12_tags, i420_tags]

/-- On a tag with a case label the classifier returns the value of that label. -/
theorem classifier_value_of_case (image : pixel_buffer) :
    (image.get_image_format ∈ packed_rgb_tags →
      pixel_format_case image.get_image_format =
        some (effect_player.make_bnb_pixel_format image)) ∧
    (image.get_image_format ∈ nv12_tags ++ i420_tags →
      yuv_format_case image.get_image_format =
        some (effect_player.make_bnb_yuv_format image)) := by
  constructor <;> intro h <;>
    cases hf : image.get_image_format <;>
    simp [hf, packed_rgb_tags, nv12_tags, i420_tags] at h <;>
    simp [effect_player.make_bnb_pixel_format, effect_player.make_bnb_yuv_format, hf, Id.run,
      pixel_format_case, yuv_format_case]

/-- C17: the classifiers' fallback values never reach the engine through
`push_frame`. The tags of the packed branch of `push_frame` are exactly the
tags with a case label in `make_bnb_pixel_format`, and the tags of its two YUV
branches exactly those with a case label in `make_bnb_yuv_format`; each
classifier returns the value of the tag's case label when there is one and its
initial (fallback) values otherwise, leaving them exactly on its labelled tags
(bpc8_rgb and nv12_bt601_full apart, whose own case keeps them). For every
completed `push_frame`: a packed frame is pushed only for a packed-RGB tag
and carries the channel order of that tag's case label; a YUV frame is pushed
only for a YUV tag, carries the triple of that tag's case label, and has 2
planes exactly when its plane structure is NV12 and 3 planes exactly when it is
I420; each packed-RGB tag gets a packed frame, each YUV tag a YUV frame, and
any other tag gets no call to the engine at all. -/
theorem push_frame_never_pushes_fallback (self : effect_player)
    (image : pixel_buffer) (o : rotation) :
    (effect_player.make_bnb_pixel_format image =
        (pixel_format_case image.get_image_format).getD .rgb ∧
      (image.get_image_format ∈ packed_rgb_tags ↔
        (pixel_format_case image.get_image_format).isSome) ∧
      (effect_player.make_bnb_pixel_format image ≠ .rgb ↔
        image.get_image_format ∈ packed_rgb_tags ∧ image.get_image_format ≠ .bpc8_rgb)) ∧
    (effect_player.make_bnb_yuv_format image =
        (yuv_format_case image.get_image_format).getD ⟨.full, .bt601, .yuv_nv12⟩ ∧
      (image.get_image_format ∈ nv12_tags ++ i420_tags ↔
        (yuv_format_case image.get_image_format).isSome) ∧
      (effect_player.make_bnb_yuv_format image ≠ ⟨.full, .bt601, .yuv_nv12⟩ ↔
        image.get_image_format ∈ nv12_tags ++ i420_tags ∧
          image.get_image_format ≠ .nv12_bt601_full)) ∧
    ∀ self', self.push_frame image o = .ok self' →
      (∀ frame, self'.m_ep.calls = self.m_ep.calls ++ [.push_frame (.bpc8 frame)] →
        image.get_image_format ∈ packed_rgb_tags ∧
        frame.fmt = effect_player.make_bnb_pixel_format image ∧
        pixel_format_case image.get_image_format = some frame.fmt) ∧
      (∀ img, self'.m_ep.calls = self.m_ep.calls ++ [.push_frame (.yuv img)] →
        image.get_image_format ∈ nv12_tags ++ i420_tags ∧
        img.get_yuv_format = effect_player.make_bnb_yuv_format image ∧
        yuv_format_case image.get_image_format = some img.get_yuv_format ∧
        (img.planes.length = 2 ↔ img.get_yuv_format.format = .yuv_nv12) ∧
        (img.planes.length = 3 ↔ img.get_yuv_format.format = .yuv_i420)) ∧
      (image.get_image_format ∈ packed_rgb_tags →
        ∃ frame, self'.m_ep.calls = self.m_ep.calls ++ [.push_frame (.bpc8 frame)]) ∧
      (image.get_image_format ∈ nv12_tags ++ i420_tags →
        ∃ img, self'.m_ep.calls = self.m_ep.calls ++ [.push_frame (.yuv img)]) ∧
      (image.get_image_format ∉ known_tags → self'.m_ep.calls = self.m_ep.calls) := by
  refine ⟨make_bnb_pixel_format_cases image, make_bnb_yuv_format_cases image, ?_⟩
  intro self' h
  have hcase := classifier_value_of_case image
  have hdis := tag_families_disjoint image.get_image_format
  have hps := make_bnb_yuv_format_plane_structure image
  rcases push_frame_ok_cases self self' image o h with
    ⟨ht, base, rfl⟩ | ⟨ht, p0, p1, rfl⟩ | ⟨ht, p0, p1, p2, rfl⟩ | ⟨ht, rfl⟩
  · refine ⟨?_, ?_, fun _ => ⟨_, rfl⟩, ?_, ?_⟩
    · intro frame hc
      simp [bnb.interfaces.effect_player.push_frame] at hc
      subst hc
      exact ⟨ht, rfl, hcase.1 ht⟩
    · intro img hc
      simp [bnb.interfaces.effect_player.push_frame] at hc
    · intro hy
      rcases List.mem_append.mp hy with h1 | h1
      · exact absurd h1 (hdis.1 ht).1
      · exact absurd h1 (hdis.1 ht).2
    · intro hu
      exact absurd (by simp [known_tags, ht]) hu
  · have hfmt := hps.1 ht
    refine ⟨?_, ?_, ?_, fun _ => ⟨_, rfl⟩, ?_⟩
    · intro frame hc
      simp [bnb.interfaces.effect_player.push_frame] at hc
    · intro img hc
      simp [bnb.interfaces.effect_player.push_frame] at hc
      subst hc
      refine ⟨List.mem_append.mpr (Or.inl ht), rfl,
        hcase.2 (List.mem_append.mpr (Or.inl ht)), ?_, ?_⟩
      · simp [yuv_image_t.planes, yuv_image_t.get_yuv_format, hfmt]
      · simp [yuv_image_t.planes, yuv_image_t.get_yuv_format, hfmt]
    · intro hp
      exact absurd hp (hdis.2.1 ht).1
    · intro hu
      exact absurd (by simp [known_tags, ht]) hu
  · have hfmt := hps.2 ht
    refine ⟨?_, ?_, ?_, fun _ => ⟨_, rfl⟩, ?_⟩
    · intro frame hc
      simp [bnb.interfaces.effect_player.push_frame] at hc
    · intro img hc
      simp [bnb.interfaces.effect_player.push_frame] at hc
      subst hc
      refine ⟨List.mem_append.mpr (Or.inr ht), rfl,
        hcase.2 (List.mem_append.mpr (Or.inr ht)), ?_, ?_⟩
      · simp [yuv_image_t.planes, yuv_image_t.get_yuv_format, hfmt]
      · simp [yuv_image_t.planes, yuv_image_t.get_yuv_format, hfmt]
    · intro hp
      exact absurd hp (hdis.2.2 ht).1
    · intro hu
      exact absurd (by simp [known_tags, ht]) hu
  · have hnot : image.get_image_format ∉ packed_rgb_tags ∧
        image.get_image_format ∉ nv12_tags ++ i420_tags := by
      simpa [known_tags, not_or, and_assoc] using ht
    refine ⟨?_, ?_, fun hp => absurd hp hnot.1, fun hy => absurd hy hnot.2, fun _ => rfl⟩
    · intro frame hc
      simp at hc
    · intro img hc
      simp at hc

/-- Witness for C17 on an i420_bt709_video buffer: the frame pushed is a YUV
frame that carries the triple of the tag's case label, (video, BT.709, I420),
and has 3 planes. -/
theorem push_frame_never_pushes_fallback_witness :
    ∃ self' img, effect_player.push_frame ⟨⟨none, .uninitialized, .stopped, []⟩, []⟩
        ⟨.i420_bt709_video, 640, 480, [1, 2, 3], none⟩ .deg0 = .ok self' ∧
      self'.m_ep.calls = [] ++ [.push_frame (.yuv img)] ∧
      yuv_format_case .i420_bt709_video = some img.get_yuv_format ∧
      (img.planes.length = 3 ↔ img.get_yuv_format.format = .yuv_i420) := by
  have hall := (push_frame_never_pushes_fallback ⟨⟨none, .uninitialized, .stopped, []⟩, []⟩
    ⟨.i420_bt709_video, 640, 480, [1, 2, 3], none⟩ .deg0).2.2 _ rfl
  obtain ⟨img, himg⟩ := hall.2.2.2.1 (by decide)
  exact ⟨_, img, rfl, himg, (hall.2.1 img himg).2.2.1, (hall.2.1 img himg).2.2.2.2⟩

end bnb.oep
